import Mathlib

/-!
Shallow embedding of `gdrs-parse` (src/gdrs-parse/src/main.rs): the schema
data model (`gdrs_api` crate, reconstructed from its use sites and §3 of the
spec), a model of the clang declaration/type tree as consumed by the walker,
and the walker / type-resolver / value-evaluator / merger themselves.

Rust panics (`unwrap` on `None`/`Err`, `unreachable!`) are modelled by the
`Run.panicked` outcome; `writeln!(io::stderr(), ...)` diagnostics are
modelled as a `List Diag` accumulated by the `Run` monad.
-/

namespace Gdrs

/-- Error kinds of the type resolver (`enum ParseError` in main.rs). -/
inductive ParseError where
  | Ignored
  | Unsupported
deriving DecidableEq

/-- Accessibility in the emitted schema (`gdrs_api::Access`). -/
inductive Access where
  | Public
  | Protected
deriving DecidableEq

/-- Function semantic in the emitted schema (`gdrs_api::FunctionSemantic`). -/
inductive FunctionSemantic where
  | Free
  | Method
  | Static
  | Virtual
deriving DecidableEq

/-- Qualifier shape of a resolved type (`gdrs_api::TypeSemantic`). -/
inductive TypeSemantic where
  | Value
  | Pointer
  | PointerToPointer
  | Reference
  | ReferenceToPointer
  | Array (size : Nat)
  | ArrayOfPointer (size : Nat)
deriving DecidableEq

/-- Placeholder carrier for C `float`/`double` payloads; the program never
computes with them, it only moves them around, so they are left abstract as
a bit pattern. -/
structure FloatVal where
  bits : Nat
deriving DecidableEq

mutual
/-- Base-type vocabulary of resolved types (`gdrs_api::TypeName`),
reconstructed from the construction sites in `parse_type`. -/
inductive TypeName where
  | Bool
  | Char
  | UChar
  | WChar
  | Short
  | UShort
  | Int
  | UInt
  | Long
  | ULong
  | LongLong
  | ULongLong
  | Float
  | Double
  | Void
  | TypeName (path : List String)
  | Class (path : List String) (targs : List TypeRef)

/-- Resolved type reference (`gdrs_api::TypeRef`). -/
inductive TypeRef where
  | mk (name : TypeName) (semantic : TypeSemantic) (is_const : Bool)
end

def TypeRef.name : TypeRef → TypeName
  | .mk n _ _ => n

def TypeRef.semantic : TypeRef → TypeSemantic
  | .mk _ s _ => s

def TypeRef.is_const : TypeRef → Bool
  | .mk _ _ c => c

/-- Evaluated literal (`gdrs_api::Value`). -/
inductive Value where
  | Int (i : Int)
  | UInt (u : Nat)
  | Float (f : FloatVal)
  | Double (d : FloatVal)
  | String (s : String)
deriving DecidableEq

/-- Named constant (`gdrs_api::Const`). -/
structure Const where
  ty : TypeRef
  name : String
  value : Value

/-- Extern global variable (`gdrs_api::Global`). -/
structure Global where
  ty : TypeRef
  name : String

/-- Enum variant (`gdrs_api::Variant`). -/
structure Variant where
  name : String
  value : Value

/-- Enum declaration (`gdrs_api::Enum`). -/
structure Enum where
  name : String
  underlying : TypeRef
  variants : List Variant

/-- Type alias (`gdrs_api::TypeAlias`). -/
structure TypeAlias where
  name : String
  ty : TypeRef

/-- Function parameter (`gdrs_api::Param`). -/
structure Param where
  ty : TypeRef
  name : String
  default : Option Value

/-- Function or method (`gdrs_api::Function`). -/
structure Function where
  name : String
  params : List Param
  return_ty : Option TypeRef
  semantic : FunctionSemantic
  access : Access
  is_const : Bool

/-- Class field (`gdrs_api::Field`). -/
structure Field where
  access : Access
  is_static : Bool
  name : String
  ty : TypeRef

/-- Class (`gdrs_api::Class`); `includePath` is the `include` field of the
Rust struct (renamed: `include` is a Lean keyword). -/
structure Class where
  includePath : String
  name : String
  consts : List Const
  enums : List Enum
  aliases : List TypeAlias
  fields : List Field
  methods : List Function

/-- Namespace tree (`gdrs_api::Namespace`); recursive through `namespaces`,
so it is an inductive rather than a structure. -/
inductive Namespace where
  | mk (name : String) (consts : List Const) (globals : List Global)
       (enums : List Enum) (aliases : List TypeAlias) (classes : List Class)
       (functions : List Function) (namespaces : List Namespace)

def Namespace.name : Namespace → String
  | .mk n _ _ _ _ _ _ _ => n

def Namespace.consts : Namespace → List Const
  | .mk _ c _ _ _ _ _ _ => c

def Namespace.globals : Namespace → List Global
  | .mk _ _ g _ _ _ _ _ => g

def Namespace.enums : Namespace → List Enum
  | .mk _ _ _ e _ _ _ _ => e

def Namespace.aliases : Namespace → List TypeAlias
  | .mk _ _ _ _ a _ _ _ => a

def Namespace.classes : Namespace → List Class
  | .mk _ _ _ _ _ c _ _ => c

def Namespace.functions : Namespace → List Function
  | .mk _ _ _ _ _ _ f _ => f

def Namespace.namespaces : Namespace → List Namespace
  | .mk _ _ _ _ _ _ _ n => n

@[simp] theorem Namespace.name_mk (n c g e a cl f ns) :
    (Namespace.mk n c g e a cl f ns).name = n := rfl

@[simp] theorem Namespace.consts_mk (n c g e a cl f ns) :
    (Namespace.mk n c g e a cl f ns).consts = c := rfl

@[simp] theorem Namespace.globals_mk (n c g e a cl f ns) :
    (Namespace.mk n c g e a cl f ns).globals = g := rfl

@[simp] theorem Namespace.enums_mk (n c g e a cl f ns) :
    (Namespace.mk n c g e a cl f ns).enums = e := rfl

@[simp] theorem Namespace.aliases_mk (n c g e a cl f ns) :
    (Namespace.mk n c g e a cl f ns).aliases = a := rfl

@[simp] theorem Namespace.classes_mk (n c g e a cl f ns) :
    (Namespace.mk n c g e a cl f ns).classes = cl := rfl

@[simp] theorem Namespace.functions_mk (n c g e a cl f ns) :
    (Namespace.mk n c g e a cl f ns).functions = f := rfl

@[simp] theorem Namespace.namespaces_mk (n c g e a cl f ns) :
    (Namespace.mk n c g e a cl f ns).namespaces = ns := rfl

/-! Model of the clang declaration/type tree, restricted to the fields and
capabilities `main.rs` actually queries (spec §6). -/

/-- Clang type kinds distinguished by `parse_type` / `parse_value`; every kind
the Rust `match`es hit with a catch-all arm is represented by a constructor
such as `FunctionProto` or `OtherKind`. -/
inductive CTypeKind where
  | Pointer
  | LValueReference
  | ConstantArray
  | Auto
  | Unexposed
  | BlockPointer
  | MemberPointer
  | Bool
  | CharS
  | SChar
  | CharU
  | UChar
  | WChar
  | Short
  | UShort
  | Int
  | UInt
  | Long
  | ULong
  | LongLong
  | ULongLong
  | Float
  | Double
  | Void
  | Enum
  | Typedef
  | Record
  | FunctionProto
  | OtherKind
deriving DecidableEq

/-- Clang entity kinds distinguished by the walker. -/
inductive CEntityKind where
  | VarDecl
  | EnumDecl
  | TypeAliasDecl
  | TypedefDecl
  | ClassDecl
  | FunctionDecl
  | Namespace
  | Method
  | FieldDecl
  | EnumConstantDecl
  | TranslationUnit
  | OtherKind
deriving DecidableEq

/-- Clang storage classes queried by the walker (`Extern` is spelled
`ExternStorage` for lexical reasons). -/
inductive StorageClass where
  | ExternStorage
  | Static
  | OtherStorage
deriving DecidableEq

/-- Clang accessibility. -/
inductive Accessibility where
  | Public
  | Protected
  | Private
deriving DecidableEq

/-- Result of `clang::Entity::evaluate` as consumed by `parse_value`. -/
inductive EvalResult where
  | Integer (i : Int)
  | Float (d : FloatVal)
  | String (s : String)

/-- One step of the semantic-parent chain of a type's declaring entity, as
walked by the qualified-name loop in `parse_type` (`get_semantic_parent`).
The chain is listed from the innermost enclosing scope outward; an empty
remainder models `get_semantic_parent()` returning `None` (whose `unwrap`
would panic — real chains always end in a `TranslationUnit` step first). -/
structure ScopeStep where
  kind : CEntityKind
  name : Option String := none

/-- The declaring entity of an enum/typedef/record type
(`Type::get_declaration`): its name and its semantic-parent chain. -/
structure DeclInfo where
  name : Option String := none
  scope : List ScopeStep := []

/-- Expansion-location file path of an entity, with the projections the
walker's filter uses (`extension`, path components, display string). -/
structure SrcLoc where
  ext : Option String := none
  comps : List String := []
  full : String := ""

/-- Non-recursive payload of a clang type node. -/
structure CTypeCore where
  kind : CTypeKind
  sizeVal : Option Nat := none
  constQ : Bool := false
  declInfo : Option DeclInfo := none

/-- Clang type node: core payload plus the recursively reachable types
(`get_elaborated_type`, `get_pointee_type`, `get_element_type`,
`get_result_type`, `get_template_argument_types`). The inner per-argument
`Option` of `get_template_argument_types` is always `Some` on real input and
is unwrapped immediately by the Rust, so it is dropped here. -/
inductive CType where
  | mk (core : CTypeCore) (elaborated pointee element resultTy : Option CType)
       (templateArgs : Option (List CType))

def CType.core : CType → CTypeCore
  | .mk c _ _ _ _ _ => c

def CType.kind (t : CType) : CTypeKind := t.core.kind

def CType.sizeVal (t : CType) : Option Nat := t.core.sizeVal

def CType.constQ (t : CType) : Bool := t.core.constQ

def CType.declInfo (t : CType) : Option DeclInfo := t.core.declInfo

def CType.elaborated : CType → Option CType
  | .mk _ e _ _ _ _ => e

def CType.pointee : CType → Option CType
  | .mk _ _ p _ _ _ => p

def CType.element : CType → Option CType
  | .mk _ _ _ e _ _ => e

def CType.resultTy : CType → Option CType
  | .mk _ _ _ _ r _ => r

def CType.templateArgs : CType → Option (List CType)
  | .mk _ _ _ _ _ a => a

/-- Non-recursive payload of a clang entity. -/
structure CEntityCore where
  kind : CEntityKind
  name : Option String := none
  ty : Option CType := none
  storage : Option StorageClass := none
  access : Option Accessibility := none
  inSysHeader : Bool := false
  loc : Option SrcLoc := none
  enumUnderlying : Option CType := none
  enumVal : Option (Int × Nat) := none
  evalRes : Option EvalResult := none
  isVirtual : Bool := false
  isStaticM : Bool := false
  isConstM : Bool := false
  typedefTy : Option CType := none

/-- Clang entity node: core payload, children in declaration order
(`visit_children` / `get_child`), and function arguments (`get_arguments`). -/
inductive CEntity where
  | mk (core : CEntityCore) (children : List CEntity)
       (args : Option (List CEntity))

def CEntity.core : CEntity → CEntityCore
  | .mk c _ _ => c

def CEntity.children : CEntity → List CEntity
  | .mk _ c _ => c

def CEntity.args : CEntity → Option (List CEntity)
  | .mk _ _ a => a

def CEntity.kind (e : CEntity) : CEntityKind := e.core.kind

def CEntity.name (e : CEntity) : Option String := e.core.name

def CEntity.ty (e : CEntity) : Option CType := e.core.ty

def CEntity.storage (e : CEntity) : Option StorageClass := e.core.storage

def CEntity.access (e : CEntity) : Option Accessibility := e.core.access

def CEntity.inSysHeader (e : CEntity) : Bool := e.core.inSysHeader

def CEntity.loc (e : CEntity) : Option SrcLoc := e.core.loc

def CEntity.enumUnderlying (e : CEntity) : Option CType := e.core.enumUnderlying

def CEntity.enumVal (e : CEntity) : Option (Int × Nat) := e.core.enumVal

def CEntity.evalRes (e : CEntity) : Option EvalResult := e.core.evalRes

def CEntity.isVirtual (e : CEntity) : Bool := e.core.isVirtual

def CEntity.isStaticM (e : CEntity) : Bool := e.core.isStaticM

def CEntity.isConstM (e : CEntity) : Bool := e.core.isConstM

def CEntity.typedefTy (e : CEntity) : Option CType := e.core.typedefTy

/-! Diagnostics and the panic/diagnostic outcome monad. -/

/-- One `WARNING:` line written to stderr, tagged by its emission site. -/
inductive Diag where
  | unsupportedExternGlobal
  | unsupportedAlias
  | unsupportedField
  | unsupportedParam
  | unsupportedReturn
  | unsupportedTemplateParam
  | unsupportedKind (k : CTypeKind)
  | anonNamespace
  | unsupportedEval
deriving DecidableEq

/-- Outcome of running a piece of the program: either a value together with
the diagnostics written so far, or a Rust panic (which aborts the run, so
diagnostics are not tracked past it). -/
inductive Run (α : Type) where
  | ok (val : α) (diags : List Diag)
  | panicked

def Run.withDiags (ds : List Diag) : Run α → Run α
  | .ok b ds2 => .ok b (ds ++ ds2)
  | .panicked => .panicked

def Run.bind (x : Run α) (f : α → Run β) : Run β :=
  match x with
  | .ok a ds => Run.withDiags ds (f a)
  | .panicked => .panicked

instance : Monad Run where
  pure a := .ok a []
  bind := Run.bind

/-- Emit one diagnostic line. -/
def warn (d : Diag) : Run Unit := .ok () [d]

/-- Model of `Option::unwrap`: `None` panics. -/
def unwrapO : Option α → Run α
  | some a => pure a
  | none => .panicked

/-- Model of `Result::unwrap`: `Err` panics. -/
def unwrapR : Except ParseError α → Run α
  | .ok a => pure a
  | .error _ => .panicked

@[simp] theorem Run.withDiags_ok (ds : List Diag) (b : α) (ds2 : List Diag) :
    Run.withDiags ds (.ok b ds2) = .ok b (ds ++ ds2) := rfl

@[simp] theorem Run.withDiags_panicked (ds : List Diag) :
    Run.withDiags ds (.panicked : Run α) = .panicked := rfl

@[simp] theorem Run.bind_ok (a : α) (ds : List Diag) (f : α → Run β) :
    Run.bind (.ok a ds) f = Run.withDiags ds (f a) := rfl

@[simp] theorem Run.bind_panicked (f : α → Run β) :
    Run.bind .panicked f = (.panicked : Run β) := rfl

@[simp] theorem Run.monad_bind (x : Run α) (f : α → Run β) :
    x >>= f = Run.bind x f := rfl

@[simp] theorem Run.monad_pure (a : α) : (pure a : Run α) = .ok a [] := rfl

@[simp] theorem warn_eq (d : Diag) : warn d = .ok () [d] := rfl

@[simp] theorem unwrapO_some (a : α) : unwrapO (some a) = .ok a [] := rfl

@[simp] theorem unwrapO_none : unwrapO (none : Option α) = .panicked := rfl

@[simp] theorem unwrapR_ok (a : α) :
    unwrapR (.ok a : Except ParseError α) = .ok a [] := rfl

@[simp] theorem unwrapR_error (e : ParseError) :
    unwrapR (.error e : Except ParseError α) = (.panicked : Run α) := rfl

/-! The merger (`merge_namespace`, main.rs lines 229-270). -/

/-- One collection's merge loop: append each source entry unless the current
destination already holds an entry of the same name (the check runs against
the evolving destination, exactly like the Rust `for` loops). -/
def mergeByName (nameOf : α → String) (dst src : List α) : List α :=
  src.foldl
    (fun acc s => if acc.any (fun d => nameOf d == nameOf s) then acc else acc ++ [s])
    dst

theorem Namespace.sizeOf_namespaces_lt (ns : Namespace) :
    sizeOf ns.namespaces < sizeOf ns := by
  cases ns with
  | mk n c g e a cl f nss => simp [Namespace.namespaces]

mutual
/-- Model of `merge_namespace`: fold `src` into `dst` in place; the
destination's `name` is kept (`name: _` in the Rust destructuring). -/
def merge_namespace (dst src : Namespace) : Namespace :=
  .mk dst.name
    (mergeByName Const.name dst.consts src.consts)
    (mergeByName Global.name dst.globals src.globals)
    (mergeByName Enum.name dst.enums src.enums)
    (mergeByName TypeAlias.name dst.aliases src.aliases)
    (mergeByName Class.name dst.classes src.classes)
    (mergeByName Function.name dst.functions src.functions)
    (mergeNsList dst.namespaces src.namespaces)
termination_by (sizeOf src, 0, 0)
decreasing_by
  exact Prod.Lex.left _ _ (Namespace.sizeOf_namespaces_lt src)

/-- The nested-namespace loop of `merge_namespace`: process source children
in order against the evolving destination list. -/
def mergeNsList (dl : List Namespace) : List Namespace → List Namespace
  | [] => dl
  | sn :: rest => mergeNsList (insertNs dl sn) rest
termination_by l => (sizeOf l, 2, 0)
decreasing_by
  · exact Prod.Lex.left _ _ (by simp; omega)
  · exact Prod.Lex.left _ _ (by simp)

/-- `iter_mut().find(|dn| dn.name == sn.name)` followed by either a recursive
merge into the first name match or a push at the end. -/
def insertNs : List Namespace → Namespace → List Namespace
  | [], sn => [sn]
  | dn :: ds, sn =>
    if dn.name == sn.name then merge_namespace dn sn :: ds
    else dn :: insertNs ds sn
termination_by dl sn => (sizeOf sn, 1, sizeOf dl)
decreasing_by
  · exact Prod.Lex.right _ (Prod.Lex.left _ _ (by omega))
  · exact Prod.Lex.right _ (Prod.Lex.right _ (by simp))
end

/-! The type resolver (`parse_type`, main.rs lines 453-568). -/

/-- Model of `t.get_elaborated_type().unwrap_or(t)`. -/
def elabOrSelf (t : CType) : CType :=
  match t.elaborated with
  | some u => u
  | none => t

theorem sizeOf_elabOrSelf (t : CType) : sizeOf (elabOrSelf t) ≤ sizeOf t := by
  cases t with
  | mk c e p el r a =>
    cases e <;> simp [elabOrSelf, CType.elaborated] <;> omega

/-- Qualifier classification of `parse_type` (the `let semantic = match ...`
block): unwrap at most two levels of pointer/reference/array, eagerly
stripping elaborated sugar after each unwrap; `none` models the panicking
`unwrap`s on a missing pointee/element/size. -/
def stripQualifiers (t : CType) : Option (TypeSemantic × CType) :=
  match t.kind with
  | .Pointer =>
    match t.pointee with
    | none => none
    | some p =>
      let t2 := elabOrSelf p
      if t2.kind = .Pointer then
        match t2.pointee with
        | none => none
        | some q => some (.PointerToPointer, elabOrSelf q)
      else some (.Pointer, t2)
  | .LValueReference =>
    match t.pointee with
    | none => none
    | some p =>
      let t2 := elabOrSelf p
      if t2.kind = .Pointer then
        match t2.pointee with
        | none => none
        | some q => some (.ReferenceToPointer, elabOrSelf q)
      else some (.Reference, t2)
  | .ConstantArray =>
    match t.sizeVal with
    | none => none
    | some sz =>
      match t.element with
      | none => none
      | some el =>
        let t2 := elabOrSelf el
        if t2.kind = .Pointer then
          match t2.pointee with
          | none => none
          | some q => some (.ArrayOfPointer sz, elabOrSelf q)
        else some (.Array sz, t2)
  | _ => some (.Value, t)

theorem sizeOf_pointee_lt {t p : CType} (h : t.pointee = some p) :
    sizeOf p < sizeOf t := by
  cases t with
  | mk c e po el r a =>
    simp [CType.pointee] at h
    subst h
    simp
    omega

theorem sizeOf_element_lt {t p : CType} (h : t.element = some p) :
    sizeOf p < sizeOf t := by
  cases t with
  | mk c e po el r a =>
    simp [CType.element] at h
    subst h
    simp
    omega

theorem sizeOf_templateArgs_lt {t : CType} {l : List CType}
    (h : t.templateArgs = some l) : sizeOf l < sizeOf t := by
  cases t with
  | mk c e po el r a =>
    simp [CType.templateArgs] at h
    subst h
    simp
    omega

theorem sizeOf_stripQualifiers {t : CType} {s : TypeSemantic} {t' : CType}
    (h : stripQualifiers t = some (s, t')) : sizeOf t' ≤ sizeOf t := by
  unfold stripQualifiers at h
  split at h
  · -- Pointer
    split at h
    · exact Option.noConfusion h
    · rename_i p hp
      dsimp only at h
      split at h
      · split at h
        · exact Option.noConfusion h
        · rename_i q hq
          simp only [Option.some.injEq, Prod.mk.injEq] at h
          obtain ⟨-, h2⟩ := h
          subst h2
          refine le_of_lt ?_
          calc sizeOf (elabOrSelf q) ≤ sizeOf q := sizeOf_elabOrSelf q
            _ < sizeOf (elabOrSelf p) := sizeOf_pointee_lt hq
            _ ≤ sizeOf p := sizeOf_elabOrSelf p
            _ ≤ sizeOf t := le_of_lt (sizeOf_pointee_lt hp)
      · simp only [Option.some.injEq, Prod.mk.injEq] at h
        obtain ⟨-, h2⟩ := h
        subst h2
        calc sizeOf (elabOrSelf p) ≤ sizeOf p := sizeOf_elabOrSelf p
          _ ≤ sizeOf t := le_of_lt (sizeOf_pointee_lt hp)
  · -- LValueReference
    split at h
    · exact Option.noConfusion h
    · rename_i p hp
      dsimp only at h
      split at h
      · split at h
        · exact Option.noConfusion h
        · rename_i q hq
          simp only [Option.some.injEq, Prod.mk.injEq] at h
          obtain ⟨-, h2⟩ := h
          subst h2
          refine le_of_lt ?_
          calc sizeOf (elabOrSelf q) ≤ sizeOf q := sizeOf_elabOrSelf q
            _ < sizeOf (elabOrSelf p) := sizeOf_pointee_lt hq
            _ ≤ sizeOf p := sizeOf_elabOrSelf p
            _ ≤ sizeOf t := le_of_lt (sizeOf_pointee_lt hp)
      · simp only [Option.some.injEq, Prod.mk.injEq] at h
        obtain ⟨-, h2⟩ := h
        subst h2
        calc sizeOf (elabOrSelf p) ≤ sizeOf p := sizeOf_elabOrSelf p
          _ ≤ sizeOf t := le_of_lt (sizeOf_pointee_lt hp)
  · -- ConstantArray
    split at h
    · exact Option.noConfusion h
    · rename_i sz hsz
      split at h
      · exact Option.noConfusion h
      · rename_i el hel
        dsimp only at h
        split at h
        · split at h
          · exact Option.noConfusion h
          · rename_i q hq
            simp only [Option.some.injEq, Prod.mk.injEq] at h
            obtain ⟨-, h2⟩ := h
            subst h2
            refine le_of_lt ?_
            calc sizeOf (elabOrSelf q) ≤ sizeOf q := sizeOf_elabOrSelf q
              _ < sizeOf (elabOrSelf el) := sizeOf_pointee_lt hq
              _ ≤ sizeOf el := sizeOf_elabOrSelf el
              _ ≤ sizeOf t := le_of_lt (sizeOf_element_lt hel)
        · simp only [Option.some.injEq, Prod.mk.injEq] at h
          obtain ⟨-, h2⟩ := h
          subst h2
          calc sizeOf (elabOrSelf el) ≤ sizeOf el := sizeOf_elabOrSelf el
            _ ≤ sizeOf t := le_of_lt (sizeOf_element_lt hel)
  · -- any other kind
    simp only [Option.some.injEq, Prod.mk.injEq] at h
    obtain ⟨-, h2⟩ := h
    subst h2
    exact le_refl _

/-- Qualified-name walk up the semantic-parent chain of the declaring
entity (the `loop` in `parse_type`): named namespace/class scopes are
prepended; an anonymous one warns and fails with `Ignored`; any other kind
breaks the loop; running out of chain models the panicking
`get_semantic_parent().unwrap()`. -/
def scopeChain (acc : List String) : List ScopeStep → Run (Except ParseError (List String))
  | [] => .panicked
  | s :: rest =>
    match s.kind with
    | .Namespace | .ClassDecl =>
      match s.name with
      | some comp => scopeChain (comp :: acc) rest
      | none => do
          warn .anonNamespace
          pure (.error .Ignored)
    | _ => pure (.ok acc)

/-- First resolution error among a list of template-argument results
(`params.iter().position(|p| p.is_err())` plus the lookup). -/
def firstErrPE : List (Except ParseError TypeRef) → Option ParseError
  | [] => none
  | .error pe :: _ => some pe
  | .ok _ :: rest => firstErrPE rest

/-- Unwraps a list of known-`Ok` results (`params.into_iter().map(|p|
p.unwrap())`); total encoding, used only when `firstErrPE` returned
`none`. -/
def okList : List (Except ParseError TypeRef) → List TypeRef
  | [] => []
  | .ok t :: rest => t :: okList rest
  | .error _ :: rest => okList rest

mutual
/-- Model of `parse_type`. -/
def parse_type (t0 : CType) : Run (Except ParseError TypeRef) :=
  match hq : stripQualifiers (elabOrSelf t0) with
  | none => .panicked
  | some (semantic, t) =>
    Run.bind (baseName t semantic) (fun r =>
      match r with
      | .error pe => pure (.error pe)
      | .ok nm => pure (.ok (TypeRef.mk nm semantic t.constQ)))
termination_by (sizeOf t0, 2)
decreasing_by
  have h1 : sizeOf t ≤ sizeOf t0 :=
    le_trans (sizeOf_stripQualifiers hq) (sizeOf_elabOrSelf t0)
  rcases lt_or_eq_of_le h1 with h | h
  · exact Prod.Lex.left _ _ h
  · rw [h]
    exact Prod.Lex.right _ (by omega)

/-- Base-type classification of `parse_type` (the `name:` field match). -/
def baseName (t : CType) (semantic : TypeSemantic) : Run (Except ParseError TypeName) :=
  match t.kind with
  | .Auto | .Unexposed | .BlockPointer | .MemberPointer => pure (.error .Ignored)
  | .Bool => pure (.ok .Bool)
  | .CharS | .SChar => pure (.ok .Char)
  | .CharU | .UChar => pure (.ok .UChar)
  | .WChar => pure (.ok .WChar)
  | .Short => pure (.ok .Short)
  | .UShort => pure (.ok .UShort)
  | .Int => pure (.ok .Int)
  | .UInt => pure (.ok .UInt)
  | .Long => pure (.ok .Long)
  | .ULong => pure (.ok .ULong)
  | .LongLong => pure (.ok .LongLong)
  | .ULongLong => pure (.ok .ULongLong)
  | .Float => pure (.ok .Float)
  | .Double => pure (.ok .Double)
  | .Void =>
    if semantic ≠ .Value then pure (.ok .Void)
    else do
      warn (.unsupportedKind .Void)
      pure (.error .Unsupported)
  | .Enum | .Typedef | .Record =>
    Run.bind (unwrapO t.declInfo) (fun d =>
    Run.bind (unwrapO d.name) (fun n0 =>
    Run.bind (scopeChain [n0] d.scope) (fun pr =>
      match pr with
      | .error pe => pure (.error pe)
      | .ok name_path =>
        match t.kind with
        | .Enum | .Typedef => pure (.ok (.TypeName name_path))
        | .Record =>
          match ha : t.templateArgs with
          | some args =>
            Run.bind (mapTemplateArgs args) (fun rs =>
              match firstErrPE rs with
              | some .Unsupported => do
                  warn .unsupportedTemplateParam
                  pure (.error .Unsupported)
              | some .Ignored => pure (.error .Ignored)
              | none => pure (.ok (.Class name_path (okList rs))))
          | none => pure (.ok (.Class name_path []))
        | _ => .panicked)))
  | k => do
      warn (.unsupportedKind k)
      pure (.error .Unsupported)
termination_by (sizeOf t, 1)
decreasing_by
  all_goals exact Prod.Lex.left _ _ (sizeOf_templateArgs_lt ha)

/-- Recursive resolution of template-argument types, collecting each
argument's result in order. -/
def mapTemplateArgs : List CType → Run (List (Except ParseError TypeRef))
  | [] => pure []
  | a :: rest =>
    Run.bind (parse_type a) (fun r =>
    Run.bind (mapTemplateArgs rest) (fun rs =>
      pure (r :: rs)))
termination_by l => (sizeOf l, 0)
decreasing_by
  · exact Prod.Lex.left _ _ (by simp; omega)
  · exact Prod.Lex.left _ _ (by simp)
end

/-! The constant value evaluator (`parse_value`, main.rs lines 572-604). -/

/-- Bit-reinterpretation of a (64-bit) signed integer as unsigned
(`i as u64`). -/
def intCastU64 (i : Int) : Nat := (i % (2 ^ 64 : Int)).toNat

/-- Model of `parse_value`: evaluate an initializer expression against the
primitive kind of its declared type. The `f64` → `f32` narrowing of the
`Float` case is left abstract (`FloatVal` is an opaque bit pattern). -/
def parse_value (exp : CEntity) : Run (Option Value) :=
  match exp.ty.map CType.kind, exp.evalRes with
  | some kind, some val =>
    match val with
    | .Integer i =>
      if kind = .CharU ∨ kind = .UChar ∨ kind = .UShort ∨ kind = .UInt ∨
         kind = .ULong ∨ kind = .ULongLong ∨ kind = .Bool then
        pure (some (.UInt (intCastU64 i)))
      else if kind = .CharS ∨ kind = .SChar ∨ kind = .WChar ∨ kind = .Short ∨
              kind = .Int ∨ kind = .Long ∨ kind = .LongLong then
        pure (some (.Int i))
      else do
        warn .unsupportedEval
        pure none
    | .Float d =>
      if kind = .Float then pure (some (.Float d))
      else if kind = .Double then pure (some (.Double d))
      else do
        warn .unsupportedEval
        pure none
    | .String s => pure (some (.String s))
  | _, _ => pure none

/-! The enum parser (`parse_enum`, main.rs lines 274-298). -/

/-- Tagging of one enumerator value by the signedness of the enum's
underlying type: the `match _enum.underlying.name` inside `parse_enum`'s
variant loop. `none` models the `_ => unreachable!()` arm. The pair `cv`
is `get_enum_constant_value`'s `(i64, u64)` view of the value. -/
def variantValue (underlying : TypeName) (cv : Int × Nat) : Option Value :=
  match underlying with
  | .Char | .Short | .Int | .Long | .LongLong => some (.Int cv.1)
  | .UChar | .UShort | .UInt | .ULong | .ULongLong => some (.UInt cv.2)
  | _ => none

/-- The variant-collecting `visit_children` loop of `parse_enum`. -/
def enumVariants (underlying : TypeRef) : List CEntity → Run (List Variant)
  | [] => pure []
  | c :: rest =>
    Run.bind (unwrapO c.name) (fun nm =>
    Run.bind (unwrapO c.enumVal) (fun cv =>
    Run.bind (unwrapO (variantValue underlying.name cv)) (fun v =>
    Run.bind (enumVariants underlying rest) (fun vs =>
      pure (Variant.mk nm v :: vs)))))

/-- Model of `parse_enum`: resolve the underlying type (panicking if it is
missing or fails to resolve), then read every child as a variant; an enum
with no name gets the reserved sentinel name `"const"`. -/
def parse_enum (e : CEntity) : Run Enum :=
  Run.bind (unwrapO e.enumUnderlying) (fun ut =>
  Run.bind (parse_type ut) (fun r =>
  Run.bind (unwrapR r) (fun underlying =>
  Run.bind (enumVariants underlying e.children) (fun vs =>
    pure (Enum.mk (e.name.getD "const") underlying vs)))))

/-! The alias parser (`parse_alias`, main.rs lines 302-314). -/

/-- Model of `parse_alias`. The `Unsupported` warning formats
`e.get_name().unwrap()`, hence the unwrap before the warn. -/
def parse_alias (e : CEntity) : Run (Option TypeAlias) :=
  Run.bind (unwrapO e.typedefTy) (fun ut =>
  Run.bind (parse_type ut) (fun r =>
    match r with
    | .ok ty =>
      Run.bind (unwrapO e.name) (fun nm => pure (some (TypeAlias.mk nm ty)))
    | .error .Unsupported =>
      Run.bind (unwrapO e.name) (fun _ => do
        warn .unsupportedAlias
        pure none)
    | .error .Ignored => pure none))

/-! The function parser (`parse_function`, main.rs lines 399-449). -/

/-- Per-parameter data gathered by the `params` iterator: the parameter
type's resolution result, the parameter name (empty when unnamed), and the
first child (a default-value expression when present). -/
def paramData : List CEntity → Run (List (Except ParseError TypeRef × String × Option CEntity))
  | [] => pure []
  | p :: rest =>
    Run.bind (unwrapO p.ty) (fun pty =>
    Run.bind (parse_type pty) (fun r =>
    Run.bind (paramData rest) (fun rs =>
      pure ((r, p.name.getD "", p.children.head?) :: rs))))

/-- First failing parameter's error kind
(`params.iter().position(|p| p.is_err())` plus the `unwrap_err`). -/
def firstParamErr : List (Except ParseError TypeRef × String × Option CEntity) → Option ParseError
  | [] => none
  | (.error pe, _, _) :: _ => some pe
  | (.ok _, _, _) :: rest => firstParamErr rest

/-- Building of the final `Param` list once no parameter failed, including
best-effort default-value evaluation (`d.and_then(|d| parse_value(d))`). -/
def buildParams : List (Except ParseError TypeRef × String × Option CEntity) → Run (List Param)
  | [] => pure []
  | (r, n, d) :: rest =>
    Run.bind (unwrapR r) (fun ty =>
    Run.bind (match d with
              | none => pure none
              | some de => parse_value de) (fun dv =>
    Run.bind (buildParams rest) (fun ps =>
      pure (Param.mk ty n dv :: ps))))

/-- The `semantic:` classification of `parse_function`. -/
def funcSemantic (e : CEntity) : FunctionSemantic :=
  if e.isVirtual then .Virtual
  else if e.isStaticM then .Static
  else if e.kind = .Method then .Method
  else .Free

/-- The `access:` classification of `parse_function`. -/
def funcAccess (e : CEntity) : Access :=
  if e.access = some .Protected then .Protected else .Public

/-- The `return_ty:` block of `parse_function` plus the assembly of the
final `Function`; evaluated after the parameter list, exactly as the Rust
struct literal orders its fields. -/
def finishFunction (e : CEntity) (nm : String) (result : CType)
    (params : List Param) : Run (Option Function) :=
  Run.bind
    (if result.kind = .Void then pure (some none)
     else
       Run.bind (parse_type result) (fun r =>
         match r with
         | .ok t => pure (some (some t))
         | .error .Unsupported => do
             warn .unsupportedReturn
             pure none
         | .error .Ignored => pure none))
    (fun ret =>
      match ret with
      | none => pure none
      | some rty =>
        pure (some (Function.mk nm params rty (funcSemantic e) (funcAccess e) e.isConstM)))

/-- Model of `parse_function`: gather per-parameter data; abort (dropping
the function) on the first failing parameter, warning only when that
failure was `Unsupported`; otherwise build the parameter list and finish
with the return type and classifications. -/
def parse_function (e : CEntity) : Run (Option Function) :=
  Run.bind (unwrapO e.ty) (fun ty =>
  Run.bind (unwrapO ty.resultTy) (fun result =>
  Run.bind (unwrapO e.name) (fun nm =>
    match e.args with
    | some ps =>
      Run.bind (paramData ps) (fun pd =>
        match firstParamErr pd with
        | some pe =>
          if pe = .Unsupported then do
            warn .unsupportedParam
            pure none
          else pure none
        | none =>
          Run.bind (buildParams pd) (fun params =>
            finishFunction e nm result params))
    | none => finishFunction e nm result [])))

/-! The class parser (`parse_class`, main.rs lines 318-395). -/

/-- Shared const-variable handling of the walker (`VarDecl`/`FieldDecl`
children whose type is const-qualified, main.rs lines 158-164 and 358-364):
if the first child evaluates to a value, emit a `Const` whose type is the
resolved declared type, falling back to the resolved type of the
initializer expression; panic when both resolutions fail. -/
def tryConst (c : CEntity) : Run (Option Const) :=
  Run.bind (match c.children.head? with
            | none => pure none
            | some exp => parse_value exp) (fun v? =>
    match v? with
    | none => pure none
    | some val =>
      Run.bind (unwrapO c.ty) (fun cty =>
      Run.bind (parse_type cty) (fun r1 =>
      Run.bind (match r1 with
                | .ok ty => pure ty
                | .error _ =>
                  Run.bind (unwrapO c.children.head?) (fun exp =>
                  Run.bind (unwrapO exp.ty) (fun ety =>
                  Run.bind (parse_type ety) (fun r2 =>
                    unwrapR r2))) ) (fun ty =>
      Run.bind (unwrapO c.name) (fun nm =>
        pure (some (Const.mk ty nm val)))))))

/-- Dispatch on one child of a class (`parse_class`'s `visit_children`
closure). -/
def classStep (cl : Class) (c : CEntity) : Run Class :=
  Run.bind (unwrapO c.access) (fun access =>
    if access = .Private then pure cl
    else
      match c.kind with
      | .EnumDecl =>
        Run.bind (parse_enum c) (fun en =>
          if en.name = "const" then
            pure { cl with consts :=
              cl.consts ++ en.variants.map (fun v => Const.mk en.underlying v.name v.value) }
          else pure { cl with enums := cl.enums ++ [en] })
      | .TypeAliasDecl | .TypedefDecl =>
        Run.bind (parse_alias c) (fun a? =>
          match a? with
          | some a => pure { cl with aliases := cl.aliases ++ [a] }
          | none => pure cl)
      | .FieldDecl | .VarDecl =>
        Run.bind (unwrapO c.ty) (fun cty =>
          if cty.constQ then
            Run.bind (tryConst c) (fun k? =>
              match k? with
              | some k => pure { cl with consts := cl.consts ++ [k] }
              | none => pure cl)
          else
            Run.bind (parse_type cty) (fun r =>
              match r with
              | .ok ty =>
                Run.bind (unwrapO c.name) (fun nm =>
                  pure { cl with fields := cl.fields ++
                    [Field.mk (if access = .Protected then .Protected else .Public)
                      (c.storage = some .Static) nm ty] })
              | .error .Unsupported => do
                  warn .unsupportedField
                  pure cl
              | .error .Ignored => pure cl))
      | .Method =>
        Run.bind (parse_function c) (fun f? =>
          match f? with
          | some f => pure { cl with methods := cl.methods ++ [f] }
          | none => pure cl)
      | _ => pure cl)

/-- The `visit_children` fold of `parse_class`. -/
def classVisit (cl : Class) : List CEntity → Run Class
  | [] => pure cl
  | c :: rest =>
    Run.bind (classStep cl c) (fun cl' => classVisit cl' rest)

/-- Model of `parse_class`; the `include` path is stamped by the caller
(`parse_namespace`), so it starts empty here. -/
def parse_class (e : CEntity) : Run Class :=
  Run.bind (unwrapO e.name) (fun nm =>
    classVisit (Class.mk "" nm [] [] [] [] []) e.children)

/-! The namespace walker (`parse_namespace`, main.rs lines 129-225). -/

def Namespace.pushConsts (ns : Namespace) (ks : List Const) : Namespace :=
  match ns with
  | .mk n c g e a cl f nss => .mk n (c ++ ks) g e a cl f nss

def Namespace.pushGlobal (ns : Namespace) (gl : Global) : Namespace :=
  match ns with
  | .mk n c g e a cl f nss => .mk n c (g ++ [gl]) e a cl f nss

def Namespace.pushEnum (ns : Namespace) (en : Enum) : Namespace :=
  match ns with
  | .mk n c g e a cl f nss => .mk n c g (e ++ [en]) a cl f nss

def Namespace.pushAlias (ns : Namespace) (al : TypeAlias) : Namespace :=
  match ns with
  | .mk n c g e a cl f nss => .mk n c g e (a ++ [al]) cl f nss

def Namespace.pushClass (ns : Namespace) (cl2 : Class) : Namespace :=
  match ns with
  | .mk n c g e a cl f nss => .mk n c g e a (cl ++ [cl2]) f nss

def Namespace.pushFunction (ns : Namespace) (fn : Function) : Namespace :=
  match ns with
  | .mk n c g e a cl f nss => .mk n c g e a cl (f ++ [fn]) nss

def Namespace.setNamespaces (ns : Namespace) (nss2 : List Namespace) : Namespace :=
  match ns with
  | .mk n c g e a cl f _ => .mk n c g e a cl f nss2

theorem CEntity.sizeOf_children_lt (e : CEntity) : sizeOf e.children < sizeOf e := by
  cases e with
  | mk core cs args => simp [CEntity.children]; omega

/-- The walker's per-child filter: system headers, `.cpp` files and
`thirdparty` path components are skipped before dispatch. -/
def skipLoc (loc : SrcLoc) : Bool :=
  loc.ext = some "cpp" ∨ loc.comps.contains "thirdparty"

mutual
/-- Model of `parse_namespace`: an unnamed entity yields `None`, otherwise
every child is dispatched in declaration order into a fresh `Namespace`. -/
def parse_namespace (e : CEntity) : Run (Option Namespace) :=
  match e.name with
  | none => pure none
  | some nm =>
    Run.bind (nsVisit (Namespace.mk nm [] [] [] [] [] [] []) e.children)
      (fun ns => pure (some ns))
termination_by (sizeOf e, 0)
decreasing_by
  exact Prod.Lex.left _ _ (CEntity.sizeOf_children_lt e)

/-- The `visit_children` fold of `parse_namespace`. -/
def nsVisit (ns : Namespace) : List CEntity → Run Namespace
  | [] => pure ns
  | c :: rest =>
    Run.bind (nsStep ns c) (fun ns2 => nsVisit ns2 rest)
termination_by cs => (sizeOf cs, 2)
decreasing_by
  · exact Prod.Lex.left _ _ (by simp; omega)
  · exact Prod.Lex.left _ _ (by simp)

/-- Dispatch on one child of a namespace (the closure in
`parse_namespace`): location filtering, then the kind `match`. -/
def nsStep (ns : Namespace) (c : CEntity) : Run Namespace :=
  if c.inSysHeader then pure ns
  else
    Run.bind (unwrapO c.loc) (fun loc =>
      if skipLoc loc then pure ns
      else
        match c.kind with
        | .VarDecl =>
          Run.bind (unwrapO c.ty) (fun cty =>
            if cty.constQ then
              Run.bind (tryConst c) (fun k? =>
                match k? with
                | some k => pure (ns.pushConsts [k])
                | none => pure ns)
            else if c.storage = some .ExternStorage then
              Run.bind (parse_type cty) (fun r =>
                match r with
                | .ok ty =>
                  Run.bind (unwrapO c.name) (fun nm =>
                    pure (ns.pushGlobal (Global.mk ty nm)))
                | .error .Unsupported =>
                  Run.bind (unwrapO c.name) (fun _ => do
                    warn .unsupportedExternGlobal
                    pure ns)
                | .error .Ignored => pure ns)
            else pure ns)
        | .EnumDecl =>
          Run.bind (parse_enum c) (fun en =>
            if en.name = "const" then
              pure (ns.pushConsts
                (en.variants.map (fun v => Const.mk en.underlying v.name v.value)))
            else pure (ns.pushEnum en))
        | .TypeAliasDecl | .TypedefDecl =>
          Run.bind (parse_alias c) (fun a? =>
            match a? with
            | some a => pure (ns.pushAlias a)
            | none => pure ns)
        | .ClassDecl =>
          Run.bind (parse_class c) (fun cl =>
            pure (ns.pushClass { cl with includePath := loc.full }))
        | .FunctionDecl =>
          Run.bind (parse_function c) (fun f? =>
            match f? with
            | some f => pure (ns.pushFunction f)
            | none => pure ns)
        | .Namespace =>
          Run.bind (parse_namespace c) (fun cns? =>
            match cns? with
            | some cns =>
              pure (ns.setNamespaces (insertNs ns.namespaces cns))
            | none => pure ns)
        | _ => pure ns)
termination_by (sizeOf c, 1)
decreasing_by
  exact Prod.Lex.right _ (by omega)
end

/-! Helper lemmas about the merger. -/

theorem mergeByName_cons (nameOf : α → String) (dst : List α) (s : α) (rest : List α) :
    mergeByName nameOf dst (s :: rest)
      = mergeByName nameOf
          (if dst.any (fun d => nameOf d == nameOf s) then dst else dst ++ [s]) rest := rfl

/-- When the source carries no duplicate names, one collection's merge is
exactly "destination, then the source entries whose names are new to the
destination, in order". -/
theorem mergeByName_eq_filter (nameOf : α → String) :
    ∀ (src : List α), (src.map nameOf).Nodup → ∀ dst : List α,
      mergeByName nameOf dst src
        = dst ++ src.filter (fun s => !(dst.any (fun d => nameOf d == nameOf s))) := by
  intro src
  induction src with
  | nil => intro _ dst; simp [mergeByName]
  | cons s rest ih =>
    intro h dst
    simp only [List.map_cons, List.nodup_cons] at h
    obtain ⟨hs, hrest⟩ := h
    rw [mergeByName_cons]
    by_cases hc : dst.any (fun d => nameOf d == nameOf s) = true
    · rw [if_pos hc, ih hrest dst, List.filter_cons]
      simp [hc]
    · have hc' : dst.any (fun d => nameOf d == nameOf s) = false :=
        Bool.eq_false_iff.2 hc
      rw [if_neg (by simp [hc']), ih hrest (dst ++ [s]), List.filter_cons]
      have hfil : rest.filter (fun r => !((dst ++ [s]).any (fun d => nameOf d == nameOf r)))
          = rest.filter (fun r => !(dst.any (fun d => nameOf d == nameOf r))) := by
        apply List.filter_congr
        intro r hr
        have hne : nameOf s ≠ nameOf r := by
          intro heq
          exact hs (heq ▸ List.mem_map_of_mem nameOf hr)
        simp [List.any_append, hne]
      rw [hfil]
      simp [hc']


/-- C2: for every destination and source `Namespace` (whose name-keyed
source collections indeed carry pairwise-distinct names), merging appends a
source entry of each of the six name-keyed collections only if no
destination entry of that collection shares its name; same-named destination
entries stay unchanged and the duplicate source entries are dropped, while
entries with names new to the destination are appended in order. -/
theorem C2_merge_first_seen_wins (dst src : Namespace)
    (h1 : (src.consts.map Const.name).Nodup)
    (h2 : (src.globals.map Global.name).Nodup)
    (h3 : (src.enums.map Enum.name).Nodup)
    (h4 : (src.aliases.map TypeAlias.name).Nodup)
    (h5 : (src.classes.map Class.name).Nodup)
    (h6 : (src.functions.map Function.name).Nodup) :
    (merge_namespace dst src).consts
        = dst.consts ++ src.consts.filter
            (fun sc => !(dst.consts.any (fun dc => dc.name == sc.name)))
    ∧ (merge_namespace dst src).globals
        = dst.globals ++ src.globals.filter
            (fun sg => !(dst.globals.any (fun dg => dg.name == sg.name)))
    ∧ (merge_namespace dst src).enums
        = dst.enums ++ src.enums.filter
            (fun se => !(dst.enums.any (fun de => de.name == se.name)))
    ∧ (merge_namespace dst src).aliases
        = dst.aliases ++ src.aliases.filter
            (fun sa => !(dst.aliases.any (fun da => da.name == sa.name)))
    ∧ (merge_namespace dst src).classes
        = dst.classes ++ src.classes.filter
            (fun sc => !(dst.classes.any (fun dc => dc.name == sc.name)))
    ∧ (merge_namespace dst src).functions
        = dst.functions ++ src.functions.filter
            (fun sf => !(dst.functions.any (fun df => df.name == sf.name))) := by
  rw [merge_namespace]
  simp only [Namespace.consts, Namespace.globals, Namespace.enums, Namespace.aliases,
    Namespace.classes, Namespace.functions]
  exact ⟨mergeByName_eq_filter _ _ h1 _, mergeByName_eq_filter _ _ h2 _,
    mergeByName_eq_filter _ _ h3 _, mergeByName_eq_filter _ _ h4 _,
    mergeByName_eq_filter _ _ h5 _, mergeByName_eq_filter _ _ h6 _⟩

/-- Concrete `TypeRef` for `int`, used by the witnesses below. -/
def wTrInt : TypeRef := .mk .Int .Value false

/-- Namespace `A` of the spec's merge test: `const X = 1`. -/
def wNsA : Namespace :=
  .mk "A" [Const.mk wTrInt "X" (.Int 1)] [] [] [] [] [] []

/-- Namespace `B` of the spec's merge test: `const X = 2`, `const Y = 3`. -/
def wNsB : Namespace :=
  .mk "B" [Const.mk wTrInt "X" (.Int 2), Const.mk wTrInt "Y" (.Int 3)] [] [] [] [] [] []

/-- Witness for C2 at the spec's own test vector: merging `B` into `A`
keeps `X = 1` and appends `Y = 3`. -/
theorem C2_merge_first_seen_wins_witness :
    (merge_namespace wNsA wNsB).consts
      = [Const.mk wTrInt "X" (.Int 1), Const.mk wTrInt "Y" (.Int 3)] := by
  have h := C2_merge_first_seen_wins wNsA wNsB
    (by decide) (by decide) (by decide) (by decide) (by decide) (by decide)
  rw [h.1]
  simp [wNsA, wNsB, Namespace.consts]

/-! Helper lemmas about the nested-namespace merge loop. -/

theorem insertNs_of_names_ne (sn : Namespace) :
    ∀ dl : List Namespace, (∀ dn ∈ dl, ¬(dn.name == sn.name)) →
      insertNs dl sn = dl ++ [sn] := by
  intro dl
  induction dl with
  | nil => intro _; rw [insertNs]; rfl
  | cons dn ds ih =>
    intro h
    rw [insertNs, if_neg (by simpa using h dn (List.mem_cons_self dn ds))]
    rw [ih (fun x hx => h x (List.mem_cons_of_mem dn hx))]
    rfl

theorem mergeNsList_cons (dl : List Namespace) (sn : Namespace) (rest : List Namespace) :
    mergeNsList dl (sn :: rest) = mergeNsList (insertNs dl sn) rest := by
  rw [mergeNsList]

theorem mergeNsList_all_new :
    ∀ (sns : List Namespace), (sns.map Namespace.name).Nodup →
      ∀ dl : List Namespace, (∀ sn ∈ sns, ∀ dn ∈ dl, ¬(dn.name == sn.name)) →
        mergeNsList dl sns = dl ++ sns := by
  intro sns
  induction sns with
  | nil => intro _ dl _; rw [mergeNsList]; simp
  | cons sn rest ih =>
    intro h dl hnew
    simp only [List.map_cons, List.nodup_cons] at h
    obtain ⟨hsn, hrest⟩ := h
    rw [mergeNsList_cons,
      insertNs_of_names_ne sn dl (hnew sn (List.mem_cons_self sn rest))]
    rw [ih hrest (dl ++ [sn]) ?_]
    · simp
    · intro x hx dn hdn
      rcases List.mem_append.1 hdn with hdl | hone
      · exact hnew x (List.mem_cons_of_mem sn hx) dn hdl
      · have hdn2 : dn = sn := by simpa using hone
        subst hdn2
        intro hbeq
        exact hsn (by
          have hxeq : dn.name = x.name := by simpa using hbeq
          exact hxeq ▸ List.mem_map_of_mem Namespace.name hx)

/-- The empty root namespace `main` starts from (`name` is empty). -/
def emptyRoot : Namespace := .mk "" [] [] [] [] [] [] []

theorem Namespace.eta (ns : Namespace) :
    Namespace.mk ns.name ns.consts ns.globals ns.enums ns.aliases ns.classes
      ns.functions ns.namespaces = ns := by
  cases ns
  rfl

/-- C4 (amended): merging a tree whose collections carry pairwise-distinct
names at top level into the empty root yields the original collections
(the destination keeps its own, empty, root name). -/
theorem C4_merge_into_empty (t : Namespace)
    (h1 : (t.consts.map Const.name).Nodup)
    (h2 : (t.globals.map Global.name).Nodup)
    (h3 : (t.enums.map Enum.name).Nodup)
    (h4 : (t.aliases.map TypeAlias.name).Nodup)
    (h5 : (t.classes.map Class.name).Nodup)
    (h6 : (t.functions.map Function.name).Nodup)
    (h7 : (t.namespaces.map Namespace.name).Nodup) :
    (merge_namespace emptyRoot t).consts = t.consts
    ∧ (merge_namespace emptyRoot t).globals = t.globals
    ∧ (merge_namespace emptyRoot t).enums = t.enums
    ∧ (merge_namespace emptyRoot t).aliases = t.aliases
    ∧ (merge_namespace emptyRoot t).classes = t.classes
    ∧ (merge_namespace emptyRoot t).functions = t.functions
    ∧ (merge_namespace emptyRoot t).namespaces = t.namespaces := by
  rw [merge_namespace]
  simp only [Namespace.consts_mk, Namespace.globals_mk, Namespace.enums_mk,
    Namespace.aliases_mk, Namespace.classes_mk, Namespace.functions_mk,
    Namespace.namespaces_mk, emptyRoot]
  refine ⟨?_, ?_, ?_, ?_, ?_, ?_, ?_⟩
  · rw [mergeByName_eq_filter _ _ h1]; simp
  · rw [mergeByName_eq_filter _ _ h2]; simp
  · rw [mergeByName_eq_filter _ _ h3]; simp
  · rw [mergeByName_eq_filter _ _ h4]; simp
  · rw [mergeByName_eq_filter _ _ h5]; simp
  · rw [mergeByName_eq_filter _ _ h6]; simp
  · rw [mergeNsList_all_new _ h7 [] (by simp)]; simp

/-- Duplicate-name constant list: the tree on which the unrestricted C4
claim fails. -/
def wNsDupConsts : Namespace :=
  .mk "" [Const.mk wTrInt "X" (.Int 1), Const.mk wTrInt "X" (.Int 2)] [] [] [] [] [] []

/-- Counterexample to C4 as stated: merging a tree holding two same-named
constants into the empty root drops the second one, so the result's
collections are not equal to the original's. -/
theorem C4_counterexample :
    (merge_namespace emptyRoot wNsDupConsts).consts ≠ wNsDupConsts.consts := by
  intro h
  have h2 := congrArg List.length h
  rw [merge_namespace] at h2
  simp [Namespace.consts, emptyRoot, wNsDupConsts, mergeByName] at h2

/-- Nested tree with distinct names, used as witness input. -/
def wNsNested : Namespace :=
  .mk "root" [Const.mk wTrInt "K" (.Int 5)] [] [] [] [] [] [wNsA]

/-- Witness for C4's amended theorem at a concrete nested tree. -/
theorem C4_merge_into_empty_witness :
    (merge_namespace emptyRoot wNsNested).consts = wNsNested.consts
    ∧ (merge_namespace emptyRoot wNsNested).namespaces = wNsNested.namespaces := by
  have h := C4_merge_into_empty wNsNested
    (by decide) (by decide) (by decide) (by decide) (by decide) (by decide) (by decide)
  exact ⟨h.1, h.2.2.2.2.2.2⟩

end Gdrs

namespace Gdrs

/-! Strong induction over the nested `Namespace` tree. -/

theorem Namespace.strongInduction {P : Namespace → Prop}
    (h : ∀ ns, (∀ c ∈ ns.namespaces, P c) → P ns) : ∀ ns, P ns := fun ns =>
  h ns (fun c _ => Namespace.strongInduction h c)
termination_by ns => sizeOf ns
decreasing_by
  rename_i hc
  exact lt_trans (List.sizeOf_lt_of_mem hc) (Namespace.sizeOf_namespaces_lt ns)

/-- Sibling nested namespaces carry pairwise-distinct names, recursively
(the shape in which the walker's nested-namespace merging leaves a tree). -/
inductive NsNodup : Namespace → Prop where
  | mk {ns : Namespace} :
      (ns.namespaces.map Namespace.name).Nodup →
      (∀ c ∈ ns.namespaces, NsNodup c) → NsNodup ns

theorem mergeByName_absorbed (nameOf : α → String) :
    ∀ (src dst : List α), (∀ s ∈ src, dst.any (fun d => nameOf d == nameOf s) = true) →
      mergeByName nameOf dst src = dst := by
  intro src
  induction src with
  | nil => intro dst _; rfl
  | cons s rest ih =>
    intro dst h
    rw [mergeByName_cons, if_pos (h s (List.mem_cons_self s rest))]
    exact ih dst (fun x hx => h x (List.mem_cons_of_mem s hx))

theorem mergeByName_self (nameOf : α → String) (l : List α) :
    mergeByName nameOf l l = l := by
  apply mergeByName_absorbed
  intro s hs
  exact List.any_eq_true.2 ⟨s, hs, by simp⟩

theorem insertNs_self (sn : Namespace) (hm : merge_namespace sn sn = sn) :
    ∀ dl : List Namespace, sn ∈ dl → (dl.map Namespace.name).Nodup →
      insertNs dl sn = dl := by
  intro dl
  induction dl with
  | nil => intro hmem _; cases hmem
  | cons dn ds ih =>
    intro hmem hnd
    simp only [List.map_cons, List.nodup_cons] at hnd
    obtain ⟨hdn, hds⟩ := hnd
    rcases List.mem_cons.1 hmem with heq | hmem2
    · subst heq
      rw [insertNs, if_pos (by simp), hm]
    · have hne : ¬(dn.name == sn.name) := by
        intro hbeq
        have : dn.name = sn.name := by simpa using hbeq
        exact hdn (this ▸ List.mem_map_of_mem Namespace.name hmem2)
      rw [insertNs, if_neg hne, ih hmem2 hds]

theorem mergeNsList_fixed :
    ∀ (sns dl : List Namespace), (∀ sn ∈ sns, insertNs dl sn = dl) →
      mergeNsList dl sns = dl := by
  intro sns
  induction sns with
  | nil => intro dl _; rw [mergeNsList]
  | cons sn rest ih =>
    intro dl h
    rw [mergeNsList_cons, h sn (List.mem_cons_self sn rest)]
    exact ih dl (fun x hx => h x (List.mem_cons_of_mem sn hx))

/-- C3 (amended): the merge is idempotent on every tree in which no two
sibling nested namespaces share a name (recursively): merging such a tree
into a copy of itself leaves it unchanged. -/
theorem C3_merge_idempotent : ∀ t : Namespace, NsNodup t → merge_namespace t t = t := by
  intro t
  induction t using Namespace.strongInduction with
  | _ ns ih =>
    intro h
    cases h with
    | mk hnd hrec =>
      rw [merge_namespace]
      rw [mergeByName_self, mergeByName_self, mergeByName_self, mergeByName_self,
        mergeByName_self, mergeByName_self]
      rw [mergeNsList_fixed ns.namespaces ns.namespaces
        (fun sn hsn => insertNs_self sn (ih sn hsn (hrec sn hsn)) ns.namespaces hsn hnd)]
      exact Namespace.eta ns

/-- Sibling namespaces with the same name `"a"` but different contents:
the tree on which the unrestricted C3 claim fails. -/
def wNsInner1 : Namespace := .mk "a" [Const.mk wTrInt "c1" (.Int 1)] [] [] [] [] [] []

def wNsInner2 : Namespace := .mk "a" [Const.mk wTrInt "c2" (.Int 2)] [] [] [] [] [] []

def wNsDupSiblings : Namespace := .mk "" [] [] [] [] [] [] [wNsInner1, wNsInner2]

/-- Counterexample to C3 as stated: on a tree holding two same-named sibling
namespaces, self-merge folds the second sibling's constant into the first,
so the tree changes. -/
theorem C3_counterexample : merge_namespace wNsDupSiblings wNsDupSiblings ≠ wNsDupSiblings := by
  intro h
  have h2 := congrArg (fun n => ((n.namespaces.headD emptyRoot).consts).length) h
  rw [merge_namespace] at h2
  simp [wNsDupSiblings, wNsInner1, wNsInner2, emptyRoot, mergeByName,
    mergeNsList, insertNs, merge_namespace, Namespace.name] at h2

/-- Witness for C3's amended theorem at a concrete nested tree. -/
theorem C3_merge_idempotent_witness : merge_namespace wNsNested wNsNested = wNsNested := by
  have hA : NsNodup wNsA := NsNodup.mk (by simp [wNsA]) (by intro c hc; simp [wNsA] at hc)
  exact C3_merge_idempotent wNsNested
    (NsNodup.mk (by simp [wNsNested]) (by
      intro c hc
      simp only [wNsNested, Namespace.namespaces_mk, List.mem_singleton] at hc
      subst hc
      exact hA))

end Gdrs

namespace Gdrs

/-! Per-category name uniqueness and its preservation by the merger. -/

/-- The spec's §3 invariant: within a `Namespace`, no two direct children of
the same kind-category share a name, recursively through nested
namespaces. -/
inductive NsInv : Namespace → Prop where
  | mk {ns : Namespace} :
      (ns.consts.map Const.name).Nodup →
      (ns.globals.map Global.name).Nodup →
      (ns.enums.map Enum.name).Nodup →
      (ns.aliases.map TypeAlias.name).Nodup →
      (ns.classes.map Class.name).Nodup →
      (ns.functions.map Function.name).Nodup →
      (ns.namespaces.map Namespace.name).Nodup →
      (∀ c ∈ ns.namespaces, NsInv c) → NsInv ns

theorem mergeByName_nodup (nameOf : α → String) :
    ∀ (src dst : List α), ((dst.map nameOf).Nodup) →
      (((mergeByName nameOf dst src).map nameOf).Nodup) := by
  intro src
  induction src with
  | nil => intro dst h; exact h
  | cons s rest ih =>
    intro dst h
    rw [mergeByName_cons]
    by_cases hc : dst.any (fun d => nameOf d == nameOf s) = true
    · rw [if_pos hc]; exact ih dst h
    · have hc' : dst.any (fun d => nameOf d == nameOf s) = false := Bool.eq_false_iff.2 hc
      rw [if_neg (by simp [hc'])]
      apply ih
      rw [List.map_append, List.nodup_append]
      refine ⟨h, by simp, ?_⟩
      intro x hx
      simp only [List.map_cons, List.map_nil, List.mem_singleton]
      intro hxs
      rcases List.mem_map.1 hx with ⟨d, hd, hdx⟩
      have := List.any_eq_false.1 hc' d hd
      rw [hdx] at this
      simp [hxs] at this

theorem merge_namespace_name (d s : Namespace) :
    (merge_namespace d s).name = d.name := by
  rw [merge_namespace]
  simp

theorem insertNs_map_name (sn : Namespace) :
    ∀ dl : List Namespace,
      (insertNs dl sn).map Namespace.name = dl.map Namespace.name
      ∨ (insertNs dl sn).map Namespace.name = dl.map Namespace.name ++ [sn.name] := by
  intro dl
  induction dl with
  | nil => right; rw [insertNs]; rfl
  | cons dn ds ih =>
    by_cases hc : (dn.name == sn.name) = true
    · left
      rw [insertNs, if_pos hc]
      simp [merge_namespace_name]
    · rw [insertNs, if_neg (by simp [Bool.eq_false_iff.2 hc])]
      rcases ih with h | h
      · left; simp [h]
      · right; simp [h]

theorem insertNs_nodup (sn : Namespace) :
    ∀ dl : List Namespace, ((dl.map Namespace.name).Nodup) →
      (((insertNs dl sn).map Namespace.name).Nodup) := by
  intro dl
  induction dl with
  | nil => intro _; rw [insertNs]; simp
  | cons dn ds ih =>
    intro h
    simp only [List.map_cons, List.nodup_cons] at h
    obtain ⟨hdn, hds⟩ := h
    by_cases hc : (dn.name == sn.name) = true
    · rw [insertNs, if_pos hc]
      simp only [List.map_cons, List.nodup_cons, merge_namespace_name]
      exact ⟨hdn, hds⟩
    · rw [insertNs, if_neg (by simp [Bool.eq_false_iff.2 hc])]
      simp only [List.map_cons, List.nodup_cons]
      refine ⟨?_, ih hds⟩
      rcases insertNs_map_name sn ds with h | h
      · rw [h]; exact hdn
      · rw [h]
        simp only [List.mem_append, List.mem_singleton]
        rintro (hin | hin)
        · exact hdn hin
        · have : dn.name = sn.name := hin
          exact hc (by simp [this])

theorem insertNs_mem (sn : Namespace) :
    ∀ dl : List Namespace, ∀ x ∈ insertNs dl sn,
      x ∈ dl ∨ x = sn ∨ ∃ dn ∈ dl, x = merge_namespace dn sn := by
  intro dl
  induction dl with
  | nil =>
    intro x hx
    rw [insertNs] at hx
    right; left
    simpa using hx
  | cons dn ds ih =>
    intro x hx
    by_cases hc : (dn.name == sn.name) = true
    · rw [insertNs, if_pos hc] at hx
      rcases List.mem_cons.1 hx with heq | hmem
      · right; right
        exact ⟨dn, List.mem_cons_self dn ds, heq⟩
      · left; exact List.mem_cons_of_mem dn hmem
    · rw [insertNs, if_neg (by simp [Bool.eq_false_iff.2 hc])] at hx
      rcases List.mem_cons.1 hx with heq | hmem
      · left; exact heq ▸ List.mem_cons_self dn ds
      · rcases ih x hmem with h | h | ⟨d2, hd2, he⟩
        · left; exact List.mem_cons_of_mem dn h
        · right; left; exact h
        · right; right; exact ⟨d2, List.mem_cons_of_mem dn hd2, he⟩

theorem mergeNsList_inv :
    ∀ (sns : List Namespace),
      (∀ sn ∈ sns, NsInv sn) →
      (∀ sn ∈ sns, ∀ d, NsInv d → NsInv (merge_namespace d sn)) →
      ∀ dl : List Namespace, ((dl.map Namespace.name).Nodup) → (∀ x ∈ dl, NsInv x) →
        (((mergeNsList dl sns).map Namespace.name).Nodup)
        ∧ ∀ x ∈ mergeNsList dl sns, NsInv x := by
  intro sns
  induction sns with
  | nil =>
    intro _ _ dl h1 h2
    rw [mergeNsList]
    exact ⟨h1, h2⟩
  | cons sn rest ih =>
    intro hinv hP dl h1 h2
    rw [mergeNsList_cons]
    apply ih
    · exact fun x hx => hinv x (List.mem_cons_of_mem sn hx)
    · exact fun x hx => hP x (List.mem_cons_of_mem sn hx)
    · exact insertNs_nodup sn dl h1
    · intro x hx
      rcases insertNs_mem sn dl x hx with h | h | ⟨dn, hdn, he⟩
      · exact h2 x h
      · exact h ▸ hinv sn (List.mem_cons_self sn rest)
      · exact he ▸ hP sn (List.mem_cons_self sn rest) dn (h2 dn hdn)

/-- C9 (amended): the merger preserves per-category name uniqueness — if
both the destination and the source tree satisfy the invariant recursively,
so does the merged tree. (The walker itself does not establish the
invariant; see the counterexample.) -/
theorem C9_merge_preserves_inv (dst src : Namespace)
    (hd : NsInv dst) (hs : NsInv src) : NsInv (merge_namespace dst src) := by
  induction src using Namespace.strongInduction generalizing dst with
  | _ src ih =>
    cases hd with
    | mk d1 d2 d3 d4 d5 d6 d7 d8 =>
      cases hs with
      | mk s1 s2 s3 s4 s5 s6 s7 s8 =>
        have hlist := mergeNsList_inv src.namespaces s8
          (fun sn hsn d hd2 => ih sn hsn d hd2 (s8 sn hsn))
          dst.namespaces d7 d8
        rw [merge_namespace]
        exact NsInv.mk
          (by simpa using mergeByName_nodup Const.name src.consts dst.consts d1)
          (by simpa using mergeByName_nodup Global.name src.globals dst.globals d2)
          (by simpa using mergeByName_nodup Enum.name src.enums dst.enums d3)
          (by simpa using mergeByName_nodup TypeAlias.name src.aliases dst.aliases d4)
          (by simpa using mergeByName_nodup Class.name src.classes dst.classes d5)
          (by simpa using mergeByName_nodup Function.name src.functions dst.functions d6)
          (by simpa using hlist.1)
          (by simpa using hlist.2)

/-- Witness for C9's amended theorem at concrete invariant-satisfying
trees. -/
theorem C9_merge_preserves_inv_witness : NsInv (merge_namespace wNsNested wNsA) := by
  have hA : NsInv wNsA := NsInv.mk (by decide) (by decide) (by decide) (by decide)
    (by decide) (by decide) (by decide) (by intro c hc; simp [wNsA] at hc)
  exact C9_merge_preserves_inv wNsNested wNsA
    (NsInv.mk (by decide) (by decide) (by decide) (by decide) (by decide) (by decide)
      (by decide) (by
        intro c hc
        simp only [wNsNested, Namespace.namespaces_mk, List.mem_singleton] at hc
        subst hc
        exact hA))
    hA

end Gdrs

namespace Gdrs

/-- Concrete `void` and function-type nodes for walker counterexamples and
witnesses. -/
def wTyVoid : CType := .mk { kind := .Void } none none none none none

def wTyFn : CType := .mk { kind := .FunctionProto } none none none (some wTyVoid) none

/-- A function declaration `void f()` with a benign location. -/
def wEntF : CEntity := .mk
  { kind := .FunctionDecl, name := some "f", ty := some wTyFn, loc := some {} } [] (some [])

/-- A translation unit declaring the overload pair `void f(); void f();`
(clang reports one `FunctionDecl` child per overload/redeclaration). -/
def wEntOverloadTU : CEntity :=
  .mk { kind := .TranslationUnit, name := some "tu" } [wEntF, wEntF] none

def wFnF : Function := Function.mk "f" [] none .Free .Public false

/-- Counterexample to C9 as stated: the walker happily emits one namespace
holding two same-named functions, so walker output does not satisfy the
per-category uniqueness invariant. -/
theorem C9_counterexample :
    parse_namespace wEntOverloadTU
      = Run.ok (some (Namespace.mk "tu" [] [] [] [] [] [wFnF, wFnF] [])) []
    ∧ ¬ (((Namespace.mk "tu" [] [] [] [] [] [wFnF, wFnF] []).functions.map
          Function.name).Nodup) := by
  constructor
  · simp [parse_namespace, nsVisit, nsStep, wEntOverloadTU, wEntF, wTyFn, wTyVoid, wFnF,
      CEntity.ty, CEntity.name, CEntity.args, CEntity.core, CEntity.children,
      CType.resultTy, paramData, firstParamErr, buildParams, finishFunction,
      CType.kind, CType.core, funcSemantic, funcAccess, CEntity.isVirtual,
      CEntity.isStaticM, CEntity.isConstM, CEntity.kind, CEntity.access,
      CEntity.inSysHeader, CEntity.loc, skipLoc, parse_function,
      Namespace.pushFunction, Run.bind]
  · decide

end Gdrs


namespace Gdrs

/-- The constants an unpacked sentinel enum contributes: one per variant,
typed with the enum's underlying type. -/
def enumConsts (en : Enum) : List Const :=
  en.variants.map (fun v => Const.mk en.underlying v.name v.value)

/-- C5: when walking an enum declaration (at namespace or at class scope),
an enum whose parsed name is the sentinel `"const"` contributes no `Enum`
entry and exactly one `Const` per variant — each carrying the variant's
name and value and the enum's underlying type — while an enum with any
other name contributes exactly one `Enum` entry and no `Const`s. -/
theorem C5_enum_sentinel (ns : Namespace) (cl : Class) (c : CEntity) (en : Enum)
    (ds : List Diag) (loc : SrcLoc) (acc : Accessibility)
    (hsys : c.inSysHeader = false) (hloc : c.loc = some loc)
    (hskip : skipLoc loc = false) (hk : c.kind = .EnumDecl)
    (hen : parse_enum c = .ok en ds)
    (hacc : c.access = some acc) (hpriv : acc ≠ .Private) :
    (en.name = "const" →
      nsStep ns c = .ok (ns.pushConsts (enumConsts en)) ds
      ∧ classStep cl c = .ok { cl with consts := cl.consts ++ enumConsts en } ds)
    ∧ (en.name ≠ "const" →
      nsStep ns c = .ok (ns.pushEnum en) ds
      ∧ classStep cl c = .ok { cl with enums := cl.enums ++ [en] } ds) := by
  constructor
  · intro hname
    constructor
    · rw [nsStep]
      simp [hsys, hloc, hskip, hk, hen, hname, enumConsts, Run.bind]
    · rw [classStep]
      simp [hacc, hpriv, hk, hen, hname, enumConsts, Run.bind]
  · intro hname
    constructor
    · rw [nsStep]
      simp [hsys, hloc, hskip, hk, hen, hname, Run.bind]
    · rw [classStep]
      simp [hacc, hpriv, hk, hen, hname, Run.bind]

/-- Concrete `int` type node. -/
def wTyInt : CType := .mk { kind := .Int } none none none none none

/-- An anonymous enum `enum { X = 7 };` (no name, so `parse_enum` names it
with the sentinel `"const"`), with underlying type `int`. -/
def wEntAnonEnum : CEntity := .mk
  { kind := .EnumDecl, enumUnderlying := some wTyInt, loc := some {},
    access := some .Public }
  [.mk { kind := .EnumConstantDecl, name := some "X", enumVal := some (7, 7) } [] none]
  none

/-- Witness for C5: walking the anonymous enum at namespace scope yields no
enum entry and exactly the const `X = 7` typed `int`. -/
theorem C5_enum_sentinel_witness :
    nsStep emptyRoot wEntAnonEnum
      = .ok (emptyRoot.pushConsts [Const.mk wTrInt "X" (.Int 7)]) [] := by
  have hen : parse_enum wEntAnonEnum
      = .ok (Enum.mk "const" wTrInt [Variant.mk "X" (.Int 7)]) [] := by
    simp [parse_enum, wEntAnonEnum, wTyInt, wTrInt, CEntity.enumUnderlying, CEntity.core,
      CEntity.name, CEntity.children, CEntity.enumVal, parse_type, stripQualifiers,
      elabOrSelf, baseName, CType.kind, CType.core, CType.elaborated, CType.constQ,
      enumVariants, variantValue, TypeRef.name, Run.bind]
  have h := (C5_enum_sentinel emptyRoot (Class.mk "" "K" [] [] [] [] [])
    wEntAnonEnum (Enum.mk "const" wTrInt [Variant.mk "X" (.Int 7)]) [] {} .Public
    rfl rfl rfl rfl hen rfl (by simp)).1 rfl
  simpa [enumConsts] using h.1

end Gdrs

namespace Gdrs

@[simp] theorem Run.withDiags_nil (r : Run α) : Run.withDiags [] r = r := by
  cases r <;> simp [Run.withDiags]

/-- The five signed integer primitive tags of the schema. -/
def signedIntTag (u : TypeName) : Prop :=
  u = .Char ∨ u = .Short ∨ u = .Int ∨ u = .Long ∨ u = .LongLong

/-- The five unsigned integer primitive tags of the schema. -/
def unsignedIntTag (u : TypeName) : Prop :=
  u = .UChar ∨ u = .UShort ∨ u = .UInt ∨ u = .ULong ∨ u = .ULongLong

theorem variantValue_signed {u : TypeName} (h : signedIntTag u) (cv : Int × Nat) :
    variantValue u cv = some (.Int cv.1) := by
  rcases h with rfl | rfl | rfl | rfl | rfl <;> rfl

theorem variantValue_unsigned {u : TypeName} (h : unsignedIntTag u) (cv : Int × Nat) :
    variantValue u cv = some (.UInt cv.2) := by
  rcases h with rfl | rfl | rfl | rfl | rfl <;> rfl

theorem enumVariants_values {underlying : TypeRef} :
    ∀ (children : List CEntity) (vs : List Variant) (ds : List Diag),
      enumVariants underlying children = .ok vs ds →
      (signedIntTag underlying.name →
        ∀ v ∈ vs, ∃ c ∈ children, ∃ cv, c.enumVal = some cv ∧ v.value = .Int cv.1)
      ∧ (unsignedIntTag underlying.name →
        ∀ v ∈ vs, ∃ c ∈ children, ∃ cv, c.enumVal = some cv ∧ v.value = .UInt cv.2) := by
  intro children
  induction children with
  | nil =>
    intro vs ds h
    rw [enumVariants] at h
    injection h with h1 h2
    subst h1
    constructor <;> intro _ v hv <;> cases hv
  | cons c rest ih =>
    intro vs ds h
    rw [enumVariants] at h
    rcases hnm : c.name with _ | nm
    · rw [hnm] at h
      simp only [unwrapO_none, Run.bind_panicked] at h
      exact Run.noConfusion h
    rw [hnm] at h
    simp only [unwrapO_some, Run.bind_ok, Run.withDiags_nil] at h
    rcases hcv : c.enumVal with _ | cv
    · rw [hcv] at h
      simp only [unwrapO_none, Run.bind_panicked] at h
      exact Run.noConfusion h
    rw [hcv] at h
    simp only [unwrapO_some, Run.bind_ok, Run.withDiags_nil] at h
    rcases hvv : variantValue underlying.name cv with _ | v0
    · rw [hvv] at h
      simp only [unwrapO_none, Run.bind_panicked] at h
      exact Run.noConfusion h
    rw [hvv] at h
    simp only [unwrapO_some, Run.bind_ok, Run.withDiags_nil] at h
    cases hrest : enumVariants underlying rest with
    | panicked =>
      rw [hrest] at h
      simp only [Run.bind_panicked] at h
      exact Run.noConfusion h
    | ok vs' ds' =>
      rw [hrest] at h
      simp only [Run.bind_ok, Run.monad_pure, Run.withDiags_ok, List.append_nil] at h
      injection h with h1 h2
      subst h1
      obtain ⟨ihS, ihU⟩ := ih vs' ds' hrest
      constructor
      · intro hsig v hv
        rcases List.mem_cons.1 hv with rfl | hmem
        · refine ⟨c, List.mem_cons_self c rest, cv, hcv, ?_⟩
          rw [variantValue_signed hsig cv] at hvv
          injection hvv with hv0
          rw [← hv0]
        · obtain ⟨c2, hc2, cv2, hcv2, hval2⟩ := ihS hsig v hmem
          exact ⟨c2, List.mem_cons_of_mem c hc2, cv2, hcv2, hval2⟩
      · intro hsig v hv
        rcases List.mem_cons.1 hv with rfl | hmem
        · refine ⟨c, List.mem_cons_self c rest, cv, hcv, ?_⟩
          rw [variantValue_unsigned hsig cv] at hvv
          injection hvv with hv0
          rw [← hv0]
        · obtain ⟨c2, hc2, cv2, hcv2, hval2⟩ := ihU hsig v hmem
          exact ⟨c2, List.mem_cons_of_mem c hc2, cv2, hcv2, hval2⟩

theorem enumVariants_total {underlying : TypeRef}
    (hint : signedIntTag underlying.name ∨ unsignedIntTag underlying.name) :
    ∀ children : List CEntity,
      (∀ c ∈ children, c.name.isSome ∧ c.enumVal.isSome) →
      enumVariants underlying children ≠ .panicked := by
  intro children
  induction children with
  | nil =>
    intro _
    rw [enumVariants]
    exact fun h => Run.noConfusion h
  | cons c rest ih =>
    intro hwf
    obtain ⟨hn, hv⟩ := hwf c (List.mem_cons_self c rest)
    rcases hnm : c.name with _ | nm
    · rw [hnm] at hn; cases hn
    rcases hcv : c.enumVal with _ | cv
    · rw [hcv] at hv; cases hv
    have hvsome : (variantValue underlying.name cv).isSome := by
      rcases hint with h | h
      · rw [variantValue_signed h cv]; rfl
      · rw [variantValue_unsigned h cv]; rfl
    rcases hvv2 : variantValue underlying.name cv with _ | v0
    · rw [hvv2] at hvsome; cases hvsome
    have htail := ih (fun x hx => hwf x (List.mem_cons_of_mem c hx))
    cases hrest : enumVariants underlying rest with
    | panicked => exact absurd hrest htail
    | ok vs' ds' =>
      rw [enumVariants, hnm]
      simp only [unwrapO_some, Run.bind_ok, Run.withDiags_nil]
      rw [hcv]
      simp only [unwrapO_some, Run.bind_ok, Run.withDiags_nil]
      rw [hvv2]
      simp only [unwrapO_some, Run.bind_ok, Run.withDiags_nil]
      rw [hrest]
      simp [Run.bind]

/-- C8: enum variant values are tagged by the signedness of the underlying
type — `Value.Int` of the signed (first) view of the enumerator value for
the five signed tags, `Value.UInt` of the unsigned (second) view for the
five unsigned tags — and under the precondition that the underlying tag is
one of these ten integer kinds the `unreachable!` arm of the variant loop
is never taken: the loop completes without panicking whenever each
enumerator child carries a name and a constant value. -/
theorem C8_variant_signedness :
    (∀ (u : TypeName) (cv : Int × Nat),
      (signedIntTag u → variantValue u cv = some (.Int cv.1))
      ∧ (unsignedIntTag u → variantValue u cv = some (.UInt cv.2))
      ∧ (signedIntTag u ∨ unsignedIntTag u → (variantValue u cv).isSome))
    ∧ (∀ (underlying : TypeRef) (children : List CEntity) (vs : List Variant)
        (ds : List Diag), enumVariants underlying children = .ok vs ds →
        (signedIntTag underlying.name →
          ∀ v ∈ vs, ∃ c ∈ children, ∃ cv, c.enumVal = some cv ∧ v.value = .Int cv.1)
        ∧ (unsignedIntTag underlying.name →
          ∀ v ∈ vs, ∃ c ∈ children, ∃ cv, c.enumVal = some cv ∧ v.value = .UInt cv.2))
    ∧ (∀ (underlying : TypeRef) (children : List CEntity),
        (signedIntTag underlying.name ∨ unsignedIntTag underlying.name) →
        (∀ c ∈ children, c.name.isSome ∧ c.enumVal.isSome) →
        enumVariants underlying children ≠ .panicked) := by
  refine ⟨?_, ?_, ?_⟩
  · intro u cv
    refine ⟨fun h => variantValue_signed h cv, fun h => variantValue_unsigned h cv, ?_⟩
    rintro (h | h)
    · rw [variantValue_signed h cv]; rfl
    · rw [variantValue_unsigned h cv]; rfl
  · intro underlying children vs ds h
    exact enumVariants_values children vs ds h
  · intro underlying children hint hwf
    exact enumVariants_total hint children hwf

/-- Witness for C8 at a concrete signed-underlying enum. -/
theorem C8_variant_signedness_witness :
    variantValue TypeName.Int (7, 7) = some (.Int 7)
    ∧ enumVariants wTrInt wEntAnonEnum.children ≠ .panicked := by
  constructor
  · exact (C8_variant_signedness.1 TypeName.Int (7, 7)).1 (by simp [signedIntTag])
  · exact C8_variant_signedness.2.2 wTrInt wEntAnonEnum.children
      (Or.inl (by simp [signedIntTag, wTrInt, TypeRef.name]))
      (by
        intro c hc
        simp only [wEntAnonEnum, CEntity.children, List.mem_singleton] at hc
        subst hc
        simp [CEntity.name, CEntity.enumVal, CEntity.core])

end Gdrs

namespace Gdrs

/-- C10: for a const-qualified variable declaration (namespace or class
scope) whose initializer evaluates to a value, the walker emits a `Const`
typed by the resolved declared type; if the declared type fails to resolve
it falls back to the resolved type of the initializer expression; and if
both resolutions fail the step panics (aborting the whole run) instead of
skipping the declaration. -/
theorem C10_const_fallback_or_panic (ns : Namespace) (cl : Class) (c : CEntity)
    (cty : CType) (expE : CEntity) (val : Value) (dsv : List Diag)
    (loc : SrcLoc) (nm : String) (acc : Accessibility)
    (hsys : c.inSysHeader = false) (hloc : c.loc = some loc)
    (hskip : skipLoc loc = false) (hk : c.kind = .VarDecl)
    (hty : c.ty = some cty) (hconst : cty.constQ = true)
    (hchild : c.children.head? = some expE)
    (hv : parse_value expE = .ok (some val) dsv)
    (hnm : c.name = some nm)
    (hacc : c.access = some acc) (hpriv : acc ≠ .Private) :
    (∀ ty ds1, parse_type cty = .ok (.ok ty) ds1 →
      nsStep ns c = .ok (ns.pushConsts [Const.mk ty nm val]) (dsv ++ ds1)
      ∧ classStep cl c
          = .ok { cl with consts := cl.consts ++ [Const.mk ty nm val] } (dsv ++ ds1))
    ∧ (∀ pe ds1 ety ty2 ds2, parse_type cty = .ok (.error pe) ds1 →
        expE.ty = some ety → parse_type ety = .ok (.ok ty2) ds2 →
      nsStep ns c = .ok (ns.pushConsts [Const.mk ty2 nm val]) (dsv ++ ds1 ++ ds2)
      ∧ classStep cl c
          = .ok { cl with consts := cl.consts ++ [Const.mk ty2 nm val] }
              (dsv ++ ds1 ++ ds2))
    ∧ (∀ pe ds1 ety pe2 ds2, parse_type cty = .ok (.error pe) ds1 →
        expE.ty = some ety → parse_type ety = .ok (.error pe2) ds2 →
      nsStep ns c = .panicked ∧ classStep cl c = .panicked) := by
  refine ⟨?_, ?_, ?_⟩
  · intro ty ds1 h1
    constructor
    · rw [nsStep]
      simp [hsys, hloc, hskip, hk, hty, hconst, tryConst, hchild, hv, h1, hnm, Run.bind]
    · rw [classStep]
      simp [hacc, hpriv, hk, hty, hconst, tryConst, hchild, hv, h1, hnm, Run.bind]
  · intro pe ds1 ety ty2 ds2 h1 hety h2
    constructor
    · rw [nsStep]
      simp [hsys, hloc, hskip, hk, hty, hconst, tryConst, hchild, hv, h1, hety, h2,
        hnm, Run.bind]
    · rw [classStep]
      simp [hacc, hpriv, hk, hty, hconst, tryConst, hchild, hv, h1, hety, h2,
        hnm, Run.bind]
  · intro pe ds1 ety pe2 ds2 h1 hety h2
    constructor
    · rw [nsStep]
      simp [hsys, hloc, hskip, hk, hty, hconst, tryConst, hchild, hv, h1, hety, h2,
        Run.bind]
    · rw [classStep]
      simp [hacc, hpriv, hk, hty, hconst, tryConst, hchild, hv, h1, hety, h2, Run.bind]

/-- Const-qualified `int` type node. -/
def wTyConstInt : CType := .mk { kind := .Int, constQ := true } none none none none none

/-- Initializer expression evaluating to the integer `7` with declared kind
`Int`. -/
def wExpr7 : CEntity := .mk
  { kind := .OtherKind, ty := some wTyInt, evalRes := some (.Integer 7) } [] none

/-- Declaration `const int K = 7;`. -/
def wEntConstK : CEntity := .mk
  { kind := .VarDecl, name := some "K", ty := some wTyConstInt, loc := some {},
    access := some .Public } [wExpr7] none

/-- Witness for C10 at `const int K = 7;` (declared type resolves, no
fallback, no panic). -/
theorem C10_const_fallback_or_panic_witness :
    nsStep emptyRoot wEntConstK
      = .ok (emptyRoot.pushConsts [Const.mk (TypeRef.mk .Int .Value true) "K" (.Int 7)]) [] := by
  have hv : parse_value wExpr7 = .ok (some (.Int 7)) [] := by
    simp [parse_value, wExpr7, wTyInt, CEntity.ty, CEntity.evalRes, CEntity.core,
      CType.kind, CType.core]
  have h1 : parse_type wTyConstInt = .ok (.ok (TypeRef.mk .Int .Value true)) [] := by
    simp [parse_type, wTyConstInt, stripQualifiers, elabOrSelf, baseName,
      CType.kind, CType.core, CType.elaborated, CType.constQ, Run.bind]
  have h := (C10_const_fallback_or_panic emptyRoot (Class.mk "" "K" [] [] [] [] [])
    wEntConstK wTyConstInt wExpr7 (.Int 7) [] {} "K" .Public
    rfl rfl rfl rfl rfl rfl rfl hv rfl rfl (by simp)).1
    (TypeRef.mk .Int .Value true) [] h1
  simpa using h.1

end Gdrs

namespace Gdrs

theorem scopeChain_anon :
    ∀ (pre : List ScopeStep) (acc : List String) (s : ScopeStep) (rest : List ScopeStep),
      (∀ x ∈ pre, (x.kind = .Namespace ∨ x.kind = .ClassDecl) ∧ x.name.isSome) →
      (s.kind = .Namespace ∨ s.kind = .ClassDecl) → s.name = none →
      scopeChain acc (pre ++ s :: rest) = .ok (.error .Ignored) [.anonNamespace] := by
  intro pre
  induction pre with
  | nil =>
    intro acc s rest _ hk hn
    rw [List.nil_append, scopeChain]
    rcases hk with hk | hk <;> simp [hk, hn, Run.bind]
  | cons x pre2 ih =>
    intro acc s rest hpre hk hn
    obtain ⟨hxk, hxn⟩ := hpre x (List.mem_cons_self x pre2)
    rcases hxnm : x.name with _ | comp
    · rw [hxnm] at hxn; cases hxn
    rw [List.cons_append, scopeChain]
    have htail := ih (comp :: acc) s rest
      (fun y hy => hpre y (List.mem_cons_of_mem x hy)) hk hn
    rcases hxk with h | h <;> simp [h, hxnm, htail]

/-- C7 (amended): resolving an enum, typedef or record type whose
qualified-name scope chain reaches an anonymous (unnamed) enclosing
namespace or class before leaving namespace/class scope fails with error
kind `Ignored` — not `Unsupported` — while emitting the anonymous-namespace
diagnostic (the resolver warns itself; its callers then drop the entity
silently, as for any `Ignored` failure). -/
theorem C7_anon_scope_ignored (t0 : CType) (sem : TypeSemantic) (t : CType)
    (d : DeclInfo) (n0 : String) (pre : List ScopeStep) (s : ScopeStep)
    (rest : List ScopeStep)
    (hstrip : stripQualifiers (elabOrSelf t0) = some (sem, t))
    (hk : t.kind = .Enum ∨ t.kind = .Typedef ∨ t.kind = .Record)
    (hd : t.declInfo = some d) (hn : d.name = some n0)
    (hscope : d.scope = pre ++ s :: rest)
    (hpre : ∀ x ∈ pre, (x.kind = .Namespace ∨ x.kind = .ClassDecl) ∧ x.name.isSome)
    (hsk : s.kind = .Namespace ∨ s.kind = .ClassDecl) (hsn : s.name = none) :
    parse_type t0 = .ok (.error .Ignored) [.anonNamespace] := by
  have hchain := scopeChain_anon pre [n0] s rest hpre hsk hsn
  rw [parse_type, hstrip]
  have hbase : baseName t sem = .ok (.error .Ignored) [.anonNamespace] := by
    rw [baseName]
    rcases hk with hk | hk | hk <;>
      simp [hk, hd, hn, hscope, hchain, Run.bind]
  simp [hbase, Run.bind]

/-- An enum type `E` declared inside an anonymous namespace. -/
def wTyAnonScopedEnum : CType := .mk
  { kind := .Enum,
    declInfo := some { name := some "E",
                       scope := [{ kind := .Namespace, name := none },
                                 { kind := .TranslationUnit, name := some "tu" }] } }
  none none none none none

/-- Counterexample to C7 as stated: at this concrete anonymous-scoped enum
type the resolver does emit the diagnostic but fails with kind `Ignored`,
which is not the claimed `Unsupported`. -/
theorem C7_counterexample :
    parse_type wTyAnonScopedEnum = .ok (.error .Ignored) [.anonNamespace]
    ∧ ParseError.Ignored ≠ ParseError.Unsupported := by
  constructor
  · simp [parse_type, wTyAnonScopedEnum, stripQualifiers, elabOrSelf, baseName,
      scopeChain, CType.kind, CType.core, CType.elaborated, CType.declInfo,
      CType.constQ, Run.bind]
  · decide

/-- Witness for C7's amended theorem at the same concrete type. -/
theorem C7_anon_scope_ignored_witness :
    parse_type wTyAnonScopedEnum = .ok (.error .Ignored) [.anonNamespace] :=
  C7_anon_scope_ignored wTyAnonScopedEnum .Value wTyAnonScopedEnum
    { name := some "E", scope := [{ kind := .Namespace, name := none },
                                  { kind := .TranslationUnit, name := some "tu" }] }
    "E" [] { kind := .Namespace, name := none }
    [{ kind := .TranslationUnit, name := some "tu" }]
    (by simp [wTyAnonScopedEnum, stripQualifiers, elabOrSelf, CType.kind, CType.core,
      CType.elaborated])
    (Or.inl rfl) rfl rfl rfl
    (by intro x hx; cases hx) (Or.inl rfl) rfl

end Gdrs

namespace Gdrs

/-- C6: the resolver unwraps pointer/reference/array qualifiers by at most
two levels. A single pointer (reference) whose pointee is not itself a
pointer resolves with semantic `Pointer` (`Reference`); when the pointee is
itself a pointer the result is exactly the classification of the
doubly-dereferenced base type under `PointerToPointer`,
`ReferenceToPointer`, or `ArrayOfPointer size` — the base name is taken
from the doubly-dereferenced type — and a third level of indirection is
never represented: a pointer remaining after the two unwraps makes the
whole type fail as `Unsupported`. -/
theorem C6_two_level_indirection :
    (∀ (t0 p : CType) (r : TypeRef) (ds : List Diag),
      (elabOrSelf t0).kind = .Pointer → (elabOrSelf t0).pointee = some p →
      (elabOrSelf p).kind ≠ .Pointer →
      parse_type t0 = .ok (.ok r) ds → r.semantic = .Pointer)
    ∧ (∀ (t0 p : CType) (r : TypeRef) (ds : List Diag),
      (elabOrSelf t0).kind = .LValueReference → (elabOrSelf t0).pointee = some p →
      (elabOrSelf p).kind ≠ .Pointer →
      parse_type t0 = .ok (.ok r) ds → r.semantic = .Reference)
    ∧ (∀ (t0 p q : CType),
      (elabOrSelf t0).kind = .Pointer → (elabOrSelf t0).pointee = some p →
      (elabOrSelf p).kind = .Pointer → (elabOrSelf p).pointee = some q →
      parse_type t0 = Run.bind (baseName (elabOrSelf q) .PointerToPointer) (fun r =>
        match r with
        | .error pe => pure (.error pe)
        | .ok nm => pure (.ok (TypeRef.mk nm .PointerToPointer (elabOrSelf q).constQ))))
    ∧ (∀ (t0 p q : CType),
      (elabOrSelf t0).kind = .LValueReference → (elabOrSelf t0).pointee = some p →
      (elabOrSelf p).kind = .Pointer → (elabOrSelf p).pointee = some q →
      parse_type t0 = Run.bind (baseName (elabOrSelf q) .ReferenceToPointer) (fun r =>
        match r with
        | .error pe => pure (.error pe)
        | .ok nm => pure (.ok (TypeRef.mk nm .ReferenceToPointer (elabOrSelf q).constQ))))
    ∧ (∀ (t0 el q : CType) (sz : Nat),
      (elabOrSelf t0).kind = .ConstantArray → (elabOrSelf t0).sizeVal = some sz →
      (elabOrSelf t0).element = some el →
      (elabOrSelf el).kind = .Pointer → (elabOrSelf el).pointee = some q →
      parse_type t0 = Run.bind (baseName (elabOrSelf q) (.ArrayOfPointer sz)) (fun r =>
        match r with
        | .error pe => pure (.error pe)
        | .ok nm => pure (.ok (TypeRef.mk nm (.ArrayOfPointer sz) (elabOrSelf q).constQ))))
    ∧ (∀ (t0 p q : CType),
      (elabOrSelf t0).kind = .Pointer → (elabOrSelf t0).pointee = some p →
      (elabOrSelf p).kind = .Pointer → (elabOrSelf p).pointee = some q →
      (elabOrSelf q).kind = .Pointer →
      parse_type t0 = .ok (.error .Unsupported) [.unsupportedKind .Pointer]) := by
  refine ⟨?_, ?_, ?_, ?_, ?_, ?_⟩
  · intro t0 p r ds hk hp hnp hres
    have hstrip : stripQualifiers (elabOrSelf t0) = some (.Pointer, elabOrSelf p) := by
      rw [stripQualifiers, hk, hp]
      simp [hnp]
    have heq : parse_type t0 = Run.bind (baseName (elabOrSelf p) .Pointer) (fun r2 =>
        match r2 with
        | .error pe => pure (.error pe)
        | .ok nm => pure (.ok (TypeRef.mk nm .Pointer (elabOrSelf p).constQ))) := by
      rw [parse_type, hstrip]
    rw [heq] at hres
    cases hb : baseName (elabOrSelf p) .Pointer with
    | panicked => rw [hb] at hres; simp [Run.bind] at hres
    | ok val ds2 =>
      rw [hb] at hres
      cases val with
      | error pe => simp [Run.bind] at hres
      | ok nm =>
        simp [Run.bind] at hres
        rw [← hres.1]
        rfl
  · intro t0 p r ds hk hp hnp hres
    have hstrip : stripQualifiers (elabOrSelf t0) = some (.Reference, elabOrSelf p) := by
      rw [stripQualifiers, hk, hp]
      simp [hnp]
    have heq : parse_type t0 = Run.bind (baseName (elabOrSelf p) .Reference) (fun r2 =>
        match r2 with
        | .error pe => pure (.error pe)
        | .ok nm => pure (.ok (TypeRef.mk nm .Reference (elabOrSelf p).constQ))) := by
      rw [parse_type, hstrip]
    rw [heq] at hres
    cases hb : baseName (elabOrSelf p) .Reference with
    | panicked => rw [hb] at hres; simp [Run.bind] at hres
    | ok val ds2 =>
      rw [hb] at hres
      cases val with
      | error pe => simp [Run.bind] at hres
      | ok nm =>
        simp [Run.bind] at hres
        rw [← hres.1]
        rfl
  · intro t0 p q hk hp hpp hq
    have hstrip : stripQualifiers (elabOrSelf t0)
        = some (.PointerToPointer, elabOrSelf q) := by
      rw [stripQualifiers, hk, hp]
      simp [hpp, hq]
    rw [parse_type, hstrip]
  · intro t0 p q hk hp hpp hq
    have hstrip : stripQualifiers (elabOrSelf t0)
        = some (.ReferenceToPointer, elabOrSelf q) := by
      rw [stripQualifiers, hk, hp]
      simp [hpp, hq]
    rw [parse_type, hstrip]
  · intro t0 el q sz hk hsz hel hpp hq
    have hstrip : stripQualifiers (elabOrSelf t0)
        = some (.ArrayOfPointer sz, elabOrSelf q) := by
      rw [stripQualifiers, hk, hsz, hel]
      simp [hpp, hq]
    rw [parse_type, hstrip]
  · intro t0 p q hk hp hpp hq hqq
    have hstrip : stripQualifiers (elabOrSelf t0)
        = some (.PointerToPointer, elabOrSelf q) := by
      rw [stripQualifiers, hk, hp]
      simp [hpp, hq]
    have hbase : baseName (elabOrSelf q) .PointerToPointer
        = .ok (.error .Unsupported) [.unsupportedKind .Pointer] := by
      rw [baseName, hqq]
      simp [Run.bind]
    have heq : parse_type t0 = Run.bind (baseName (elabOrSelf q) .PointerToPointer)
        (fun r2 =>
          match r2 with
          | .error pe => pure (.error pe)
          | .ok nm => pure (.ok (TypeRef.mk nm .PointerToPointer (elabOrSelf q).constQ))) := by
      rw [parse_type, hstrip]
    rw [heq, hbase]
    simp [Run.bind]

/-- Pointer type nodes `int*`, `int**`, `int***`. -/
def wTyIntPtr : CType := .mk { kind := .Pointer } none (some wTyInt) none none none

def wTyIntPtrPtr : CType := .mk { kind := .Pointer } none (some wTyIntPtr) none none none

def wTyIntPtrPtrPtr : CType :=
  .mk { kind := .Pointer } none (some wTyIntPtrPtr) none none none

/-- Witness for C6: `int**` resolves to `PointerToPointer` with base name
`int` taken from the doubly-dereferenced type, and `int***` is rejected as
`Unsupported` (no third level is ever represented). -/
theorem C6_two_level_indirection_witness :
    parse_type wTyIntPtrPtr = .ok (.ok (TypeRef.mk .Int .PointerToPointer false)) []
    ∧ parse_type wTyIntPtrPtrPtr = .ok (.error .Unsupported) [.unsupportedKind .Pointer] := by
  constructor
  · have h := C6_two_level_indirection.2.2.1 wTyIntPtrPtr wTyIntPtr wTyInt
      (by simp [elabOrSelf, wTyIntPtrPtr, CType.elaborated, CType.kind, CType.core])
      (by simp [elabOrSelf, wTyIntPtrPtr, CType.elaborated, CType.pointee])
      (by simp [elabOrSelf, wTyIntPtr, CType.elaborated, CType.kind, CType.core])
      (by simp [elabOrSelf, wTyIntPtr, CType.elaborated, CType.pointee])
    rw [h]
    simp [elabOrSelf, wTyInt, CType.elaborated, baseName, CType.kind, CType.core,
      CType.constQ, Run.bind]
  · exact C6_two_level_indirection.2.2.2.2.2 wTyIntPtrPtrPtr wTyIntPtrPtr wTyIntPtr
      (by simp [elabOrSelf, wTyIntPtrPtrPtr, CType.elaborated, CType.kind, CType.core])
      (by simp [elabOrSelf, wTyIntPtrPtrPtr, CType.elaborated, CType.pointee])
      (by simp [elabOrSelf, wTyIntPtrPtr, CType.elaborated, CType.kind, CType.core])
      (by simp [elabOrSelf, wTyIntPtrPtr, CType.elaborated, CType.pointee])
      (by simp [elabOrSelf, wTyIntPtr, CType.elaborated, CType.kind, CType.core])

end Gdrs

namespace Gdrs

/-- C1 (amended): if any parameter type fails to resolve, the whole function
is dropped — `parse_function` returns no `Function` and the walker leaves
the enclosing namespace's function list unchanged — and `parse_function`
emits exactly one diagnostic of its own (the unsupported-parameter warning)
iff the first failing parameter's error kind was `Unsupported`; the type
resolver may additionally have emitted diagnostics of its own while the
parameters were resolved (`ds0`). -/
theorem C1_param_failure_drops_function (e : CEntity) (ty rt : CType)
    (nm : String) (ps : List CEntity)
    (pd : List (Except ParseError TypeRef × String × Option CEntity))
    (ds0 : List Diag) (pe : ParseError)
    (hty : e.ty = some ty) (hrt : ty.resultTy = some rt) (hnm : e.name = some nm)
    (hargs : e.args = some ps)
    (hpd : paramData ps = .ok pd ds0)
    (herr : firstParamErr pd = some pe) :
    parse_function e
      = .ok none (ds0 ++ if pe = .Unsupported then [.unsupportedParam] else [])
    ∧ ∀ (ns : Namespace) (loc : SrcLoc),
        e.inSysHeader = false → e.loc = some loc → skipLoc loc = false →
        e.kind = .FunctionDecl →
        nsStep ns e
          = .ok ns (ds0 ++ if pe = .Unsupported then [.unsupportedParam] else []) := by
  have hfn : parse_function e
      = .ok none (ds0 ++ if pe = .Unsupported then [.unsupportedParam] else []) := by
    by_cases hpe : pe = .Unsupported
    · simp [parse_function, hty, hrt, hnm, hargs, hpd, herr, hpe, Run.bind]
    · simp [parse_function, hty, hrt, hnm, hargs, hpd, herr, hpe, Run.bind]
  refine ⟨hfn, ?_⟩
  intro ns loc hsys hloc hskip hk
  rw [nsStep]
  simp [hsys, hloc, hskip, hk, hfn, Run.bind]

/-- An unsupported parameter type (function-pointer-ish kind, hit by the
resolver's catch-all arm). -/
def wTyBadParam : CType := .mk { kind := .FunctionProto } none none none none none

/-- The parameter entity carrying that type. -/
def wParamBad : CEntity := .mk { kind := .OtherKind, ty := some wTyBadParam } [] none

/-- Declaration `void g(<unsupported>);`. -/
def wEntFnBad : CEntity := .mk
  { kind := .FunctionDecl, name := some "g", ty := some wTyFn, loc := some {} }
  [] (some [wParamBad])

/-- Counterexample to C1 as stated: at this function with one `Unsupported`
parameter the function is indeed dropped, but the run emits two diagnostics
(the resolver's unsupported-kind warning and the function-level
unsupported-parameter warning), not exactly one. -/
theorem C1_counterexample :
    parse_function wEntFnBad
      = .ok none [.unsupportedKind .FunctionProto, .unsupportedParam]
    ∧ [Diag.unsupportedKind .FunctionProto, Diag.unsupportedParam].length ≠ 1 := by
  constructor
  · simp [parse_function, wEntFnBad, wParamBad, wTyBadParam, wTyFn, wTyVoid,
      CEntity.ty, CEntity.name, CEntity.args, CEntity.core, CType.resultTy,
      paramData, firstParamErr, parse_type, stripQualifiers, elabOrSelf, baseName,
      CType.kind, CType.core, CType.elaborated, CType.constQ, CEntity.children,
      Run.bind]
  · decide

/-- Witness for C1's amended theorem at the same concrete function. -/
theorem C1_param_failure_drops_function_witness :
    parse_function wEntFnBad
      = .ok none ([Diag.unsupportedKind .FunctionProto]
          ++ if ParseError.Unsupported = ParseError.Unsupported
             then [Diag.unsupportedParam] else []) := by
  have hpd : paramData [wParamBad]
      = .ok [(.error .Unsupported, "", none)] [.unsupportedKind .FunctionProto] := by
    simp [paramData, wParamBad, wTyBadParam, CEntity.ty, CEntity.name, CEntity.core,
      CEntity.children, parse_type, stripQualifiers, elabOrSelf, baseName,
      CType.kind, CType.core, CType.elaborated, CType.constQ, Run.bind]
  exact (C1_param_failure_drops_function wEntFnBad wTyFn wTyVoid "g" [wParamBad]
    [(.error .Unsupported, "", none)] [.unsupportedKind .FunctionProto] .Unsupported
    rfl rfl rfl rfl hpd rfl).1

end Gdrs
